import Mathlib

/-!
# Zendesk account gateway

A shallow embedding of `pkg/zendesk` (`error.go`, `main.go`, `interface.go`,
`account.go`) together with the properties of its two accessors `Url` and
`Subdomain`, of the private fetch routine `account` and of the status-code
classifier `convertToError`.

Go values are embedded as follows.

* `error` values are trees (`GoError`): the two package sentinels, errors made by
  `fmt.Errorf` with and without `%w`, errors made by `errors.Join`, and leaves
  standing for errors made elsewhere.  A nil `error` is `none`.
* A call that ends in a run-time panic is `Outcome.panicked`; a call that
  returns is `Outcome.returned`.
* A transport is an object with a state of its own: `Do` answers a request and
  leaves the transport in a new state.  A call of a gateway method starts with
  the transport in one state and leaves it in another (`Run.transport`), so
  what the transport was asked shows in the transport and nowhere else.
* Go strings that reach `net/url` are lists of bytes (`Bytes`).
* `net/url` and `encoding/json` are not part of the package.  What `url.Parse`
  gives and what `json.Unmarshal` decodes are fields of `Lib`; every general
  theorem holds for every `Lib`.  `Parse` and `jsonUnmarshal` are models of
  `net/url` and of `encoding/json` for the target type `accountResponse`; they
  make up `stdlib`, on which the package is evaluated at concrete inputs.
-/

namespace Zendesk

/-! ## error.go -/

/-- Go `error` values reachable in this package. -/
inductive GoError where
  /-- The package variable `ErrNotFound = errors.New("not found error")`. -/
  | ErrNotFound
  /-- The package variable `ErrUnexpected = errors.New("unexpected error")`. -/
  | ErrUnexpected
  /-- An error value without `Unwrap` and `Is` methods that is neither sentinel,
  such as the result of `errors.New` elsewhere or of `fmt.Errorf` without `%w`. -/
  | other (msg : String)
  /-- The value of `fmt.Errorf(label + "%w", cause)`. -/
  | wrapf (label : String) (cause : GoError)
  /-- The value of `errors.Join(a, b)` for non-nil `a` and `b`. -/
  | join (a b : GoError)
  deriving DecidableEq

namespace GoError

/-- The method `Error()`. -/
def Error : GoError → String
  | ErrNotFound => "not found error"
  | ErrUnexpected => "unexpected error"
  | other msg => msg
  | wrapf label cause => label ++ cause.Error
  | join a b => a.Error ++ "\n" ++ b.Error

end GoError

/-- The traversal of `errors.Is(err, target)` for non-nil `err`: the error
itself, then what `Unwrap() error` or `Unwrap() []error` gives.  Both callers
pass a sentinel as `target`, for which `==` on the Go side is identity. -/
def errorsIsTree (target : GoError) : GoError → Bool
  | .wrapf label cause =>
      decide (GoError.wrapf label cause = target) || errorsIsTree target cause
  | .join a b =>
      decide (GoError.join a b = target) || errorsIsTree target a || errorsIsTree target b
  | e => decide (e = target)

/-- The function `errors.Is(err, target)` with a non-nil target: a nil `err`
matches nothing. -/
def errorsIs (err : Option GoError) (target : GoError) : Bool :=
  match err with
  | none => false
  | some e => errorsIsTree target e

/-- The method `IsErrNotFound`. -/
def IsErrNotFound (err : Option GoError) : Bool :=
  errorsIs err GoError.ErrNotFound

/-- The method `isErrUnexpected`. -/
def isErrUnexpected (err : Option GoError) : Bool :=
  errorsIs err GoError.ErrUnexpected

/-- The constant `http.StatusOK`. -/
def StatusOK : Int := 200

/-- The constant `http.StatusNotFound`. -/
def StatusNotFound : Int := 404

/-- The verb `%d` of `fmt` applied to an `int`. -/
def fmtD (n : Int) : String :=
  toString n

/-- The function `convertToError`. -/
def convertToError (statusCode : Int) : GoError :=
  if statusCode = StatusNotFound then
    GoError.ErrNotFound
  else
    GoError.join GoError.ErrUnexpected
      (GoError.other ("unexpected status code " ++ fmtD statusCode))

/-! ## A model of `net/url` -/

/-- The bytes of a Go string. -/
abbrev Bytes := List Nat

/-- The UTF-8 encoding of one character. -/
def utf8Char (c : Char) : Bytes :=
  let n := c.toNat
  if n < 0x80 then [n]
  else if n < 0x800 then [0xC0 + n / 0x40, 0x80 + n % 0x40]
  else if n < 0x10000 then [0xE0 + n / 0x1000, 0x80 + n / 0x40 % 0x40, 0x80 + n % 0x40]
  else [0xF0 + n / 0x40000, 0x80 + n / 0x1000 % 0x40, 0x80 + n / 0x40 % 0x40, 0x80 + n % 0x40]

/-- The bytes of a list of characters. -/
def utf8Chars : List Char → Bytes
  | [] => []
  | c :: cs => utf8Char c ++ utf8Chars cs

/-- The bytes of a text. -/
def utf8 (s : String) : Bytes :=
  utf8Chars s.data

/-- The byte of an ASCII character. -/
def byte (c : Char) : Nat :=
  c.toNat

/-- The modes of `shouldEscape`. -/
inductive encoding where
  | encodePath
  | encodePathSegment
  | encodeHost
  | encodeZone
  | encodeUserPassword
  | encodeQueryComponent
  | encodeFragment
  deriving DecidableEq

/-- An ASCII letter or digit. -/
def isAlnum (c : Nat) : Bool :=
  (byte 'a' ≤ c && c ≤ byte 'z') || (byte 'A' ≤ c && c ≤ byte 'Z') ||
    (byte '0' ≤ c && c ≤ byte '9')

/-- The function `shouldEscape`. -/
def shouldEscape (c : Nat) (mode : encoding) : Bool :=
  if isAlnum c then false
  else if (mode = .encodeHost ∨ mode = .encodeZone) ∧
      c ∈ [byte '!', byte '$', byte '&', byte '\'', byte '(', byte ')', byte '*', byte '+',
        byte ',', byte ';', byte '=', byte ':', byte '[', byte ']', byte '<', byte '>',
        byte '\"'] then false
  else if c ∈ [byte '-', byte '_', byte '.', byte '~'] then false
  else if c ∈ [byte '$', byte '&', byte '+', byte ',', byte '/', byte ':', byte ';',
      byte '=', byte '?', byte '@'] then
    match mode with
    | .encodePath => c = byte '?'
    | .encodePathSegment => c = byte '/' || c = byte ';' || c = byte ',' || c = byte '?'
    | .encodeUserPassword => c = byte '@' || c = byte '/' || c = byte '?' || c = byte ':'
    | .encodeQueryComponent => true
    | .encodeFragment => false
    | .encodeHost => true
    | .encodeZone => true
  else if mode = .encodeFragment ∧ c ∈ [byte '!', byte '(', byte ')', byte '*'] then false
  else true

/-- The function `ishex`. -/
def ishex (c : Nat) : Bool :=
  (byte '0' ≤ c && c ≤ byte '9') || (byte 'a' ≤ c && c ≤ byte 'f') ||
    (byte 'A' ≤ c && c ≤ byte 'F')

/-- The function `unhex`. -/
def unhex (c : Nat) : Nat :=
  if byte '0' ≤ c ∧ c ≤ byte '9' then c - byte '0'
  else if byte 'a' ≤ c ∧ c ≤ byte 'f' then c - byte 'a' + 10
  else if byte 'A' ≤ c ∧ c ≤ byte 'F' then c - byte 'A' + 10
  else 0

/-- An `EscapeError`; the quoted escape is left out of the text. -/
def escapeError : GoError :=
  GoError.other "invalid URL escape"

/-- An `InvalidHostError`; the quoted character is left out of the text. -/
def invalidHostError : GoError :=
  GoError.other "invalid character in host name"

/-- The function `unescape`. -/
def unescape (mode : encoding) : Bytes → Except GoError Bytes
  | [] => .ok []
  | c :: cs =>
      if c = byte '%' then
        match cs with
        | h1 :: h2 :: rest =>
            if ishex h1 ∧ ishex h2 then
              if mode = .encodeHost ∧ unhex h1 < 8 ∧ ¬ (h1 = byte '2' ∧ h2 = byte '5') then
                .error escapeError
              else if mode = .encodeZone ∧ ¬ (h1 = byte '2' ∧ h2 = byte '5') ∧
                  unhex h1 * 16 + unhex h2 ≠ byte ' ' ∧
                  shouldEscape (unhex h1 * 16 + unhex h2) .encodeHost then
                .error escapeError
              else
                match unescape mode rest with
                | .error e => .error e
                | .ok t => .ok ((unhex h1 * 16 + unhex h2) :: t)
            else .error escapeError
        | _ => .error escapeError
      else if c = byte '+' then
        match unescape mode cs with
        | .error e => .error e
        | .ok t => .ok ((if mode = .encodeQueryComponent then byte ' ' else byte '+') :: t)
      else if (mode = .encodeHost ∨ mode = .encodeZone) ∧ c < 0x80 ∧
          shouldEscape c .encodeHost then
        .error invalidHostError
      else
        match unescape mode cs with
        | .error e => .error e
        | .ok t => .ok (c :: t)

/-- The digit of `upperhex` for a value below 16. -/
def upperhex (n : Nat) : Nat :=
  if n < 10 then byte '0' + n else byte 'A' + (n - 10)

/-- The function `escape`. -/
def escape (mode : encoding) : Bytes → Bytes
  | [] => []
  | c :: cs =>
      if shouldEscape c mode then
        if c = byte ' ' ∧ mode = .encodeQueryComponent then byte '+' :: escape mode cs
        else byte '%' :: upperhex (c / 16) :: upperhex (c % 16) :: escape mode cs
      else c :: escape mode cs

/-- The function `strings.Cut` for a separator of one byte: the text before the
first separator and the text after it, or the whole text and nothing. -/
def cut (sep : Nat) : Bytes → Bytes × Bytes
  | [] => ([], [])
  | c :: cs =>
      if c = sep then ([], cs)
      else ((c :: (cut sep cs).1), (cut sep cs).2)

/-- The text before the last separator and the text after it, when the
separator occurs (`strings.LastIndex`). -/
def cutLast (sep : Nat) (s : Bytes) : Option (Bytes × Bytes) :=
  if sep ∈ s then
    some ((cut sep s.reverse).2.reverse, (cut sep s.reverse).1.reverse)
  else none

/-- The function `stringContainsCTLByte`. -/
def stringContainsCTLByte (s : Bytes) : Bool :=
  s.any fun b => b < byte ' ' || b = 0x7f

/-- The struct `Userinfo`. -/
structure Userinfo where
  username : Bytes
  password : Bytes
  passwordSet : Bool
  deriving DecidableEq

/-- The struct `URL`. -/
structure URL where
  Scheme : Bytes := []
  Opaque : Bytes := []
  User : Option Userinfo := none
  Host : Bytes := []
  Path : Bytes := []
  RawPath : Bytes := []
  OmitHost : Bool := false
  ForceQuery : Bool := false
  RawQuery : Bytes := []
  Fragment : Bytes := []
  RawFragment : Bytes := []
  deriving DecidableEq

/-- The loop of `getScheme`: `seen` is the text before the current byte. -/
def getSchemeLoop (rawURL : Bytes) : Bytes → Bytes → Except GoError (Bytes × Bytes)
  | _, [] => .ok ([], rawURL)
  | seen, c :: cs =>
      if (byte 'a' ≤ c ∧ c ≤ byte 'z') ∨ (byte 'A' ≤ c ∧ c ≤ byte 'Z') then
        getSchemeLoop rawURL (seen ++ [c]) cs
      else if (byte '0' ≤ c ∧ c ≤ byte '9') ∨ c = byte '+' ∨ c = byte '-' ∨ c = byte '.' then
        if seen = [] then .ok ([], rawURL) else getSchemeLoop rawURL (seen ++ [c]) cs
      else if c = byte ':' then
        if seen = [] then .error (GoError.other "missing protocol scheme") else .ok (seen, cs)
      else .ok ([], rawURL)

/-- The function `getScheme`: the scheme and the text after its colon. -/
def getScheme (rawURL : Bytes) : Except GoError (Bytes × Bytes) :=
  getSchemeLoop rawURL [] rawURL

/-- The function `strings.ToLower` on ASCII text. -/
def toLower (s : Bytes) : Bytes :=
  s.map fun c => if byte 'A' ≤ c ∧ c ≤ byte 'Z' then c + 32 else c

/-- The function `validOptionalPort`. -/
def validOptionalPort (port : Bytes) : Bool :=
  match port with
  | [] => true
  | c :: ds => c = byte ':' && ds.all fun b => byte '0' ≤ b && b ≤ byte '9'

/-- The index of the first occurrence of `%25`, as the texts before it and
from it on (`strings.Index`). -/
def cutAtZone : Bytes → Option (Bytes × Bytes)
  | [] => none
  | c :: cs =>
      if [byte '%', byte '2', byte '5'].isPrefixOf (c :: cs) then some ([], c :: cs)
      else
        match cutAtZone cs with
        | none => none
        | some (a, b) => some (c :: a, b)

/-- The function `parseHost`. -/
def parseHost (host : Bytes) : Except GoError Bytes :=
  let plain : Except GoError Bytes := unescape .encodeHost host
  if host.head? = some (byte '[') then
    match cutLast (byte ']') host with
    | none => .error (GoError.other "missing ']' in host")
    | some (inside, colonPort) =>
        if ¬ validOptionalPort colonPort then
          .error (GoError.other "invalid port after host")
        else
          match cutAtZone inside with
          | some (before, zone) =>
              match unescape .encodeHost before with
              | .error e => .error e
              | .ok host1 =>
                  match unescape .encodeZone zone with
                  | .error e => .error e
                  | .ok host2 =>
                      match unescape .encodeHost (byte ']' :: colonPort) with
                      | .error e => .error e
                      | .ok host3 => .ok (host1 ++ host2 ++ host3)
          | none => plain
  else
    match cutLast (byte ':') host with
    | some (_, port) =>
        if ¬ validOptionalPort (byte ':' :: port) then
          .error (GoError.other "invalid port after host")
        else plain
    | none => plain

/-- The function `validUserinfo`. -/
def validUserinfo (s : Bytes) : Bool :=
  s.all fun r => isAlnum r ||
    decide (r ∈ [byte '-', byte '.', byte '_', byte ':', byte '~', byte '!', byte '$',
      byte '&', byte '\'', byte '(', byte ')', byte '*', byte '+', byte ',', byte ';',
      byte '=', byte '%', byte '@'])

/-- The function `parseAuthority`. -/
def parseAuthority (authority : Bytes) : Except GoError (Option Userinfo × Bytes) :=
  match cutLast (byte '@') authority with
  | none =>
      match parseHost authority with
      | .error e => .error e
      | .ok host => .ok (none, host)
  | some (userinfo, hostText) =>
      match parseHost hostText with
      | .error e => .error e
      | .ok host =>
          if ¬ validUserinfo userinfo then .error (GoError.other "net/url: invalid userinfo")
          else if byte ':' ∉ userinfo then
            match unescape .encodeUserPassword userinfo with
            | .error e => .error e
            | .ok name =>
                .ok (some { username := name, password := [], passwordSet := false }, host)
          else
            match unescape .encodeUserPassword (cut (byte ':') userinfo).1 with
            | .error e => .error e
            | .ok name =>
                match unescape .encodeUserPassword (cut (byte ':') userinfo).2 with
                | .error e => .error e
                | .ok pass =>
                    .ok (some { username := name, password := pass, passwordSet := true }, host)

/-- The method `setPath`. -/
def URL.setPath (u : URL) (p : Bytes) : Except GoError URL :=
  match unescape .encodePath p with
  | .error e => .error e
  | .ok path =>
      .ok { u with Path := path, RawPath := if escape .encodePath path = p then [] else p }

/-- The method `setFragment`. -/
def URL.setFragment (u : URL) (f : Bytes) : Except GoError URL :=
  match unescape .encodeFragment f with
  | .error e => .error e
  | .ok frag =>
      .ok { u with Fragment := frag,
                   RawFragment := if escape .encodeFragment frag = f then [] else f }

/-- The function `parse` with `viaRequest` false. -/
def parse (rawURL : Bytes) : Except GoError URL :=
  if stringContainsCTLByte rawURL then
    .error (GoError.other "net/url: invalid control character in URL")
  else if rawURL = [byte '*'] then .ok { Path := [byte '*'] }
  else
    match getScheme rawURL with
    | .error e => .error e
    | .ok (scheme, afterScheme) =>
        let questionLast : Bool :=
          afterScheme.getLast? = some (byte '?') && afterScheme.count (byte '?') = 1
        let rest : Bytes :=
          if questionLast then afterScheme.dropLast else (cut (byte '?') afterScheme).1
        let u : URL :=
          { Scheme := toLower scheme, ForceQuery := questionLast,
            RawQuery := if questionLast then [] else (cut (byte '?') afterScheme).2 }
        if rest.head? ≠ some (byte '/') ∧ scheme ≠ [] then .ok { u with Opaque := rest }
        else if rest.head? ≠ some (byte '/') ∧ byte ':' ∈ (cut (byte '/') rest).1 then
          .error (GoError.other "first path segment in URL cannot contain colon")
        else if (scheme ≠ [] ∨ ¬ [byte '/', byte '/', byte '/'].isPrefixOf rest) ∧
            [byte '/', byte '/'].isPrefixOf rest then
          let authority := (cut (byte '/') (rest.drop 2)).1
          let path : Bytes :=
            if byte '/' ∈ rest.drop 2 then byte '/' :: (cut (byte '/') (rest.drop 2)).2 else []
          match parseAuthority authority with
          | .error e => .error e
          | .ok (user, host) => URL.setPath { u with User := user, Host := host } path
        else if scheme ≠ [] ∧ rest.head? = some (byte '/') then
          URL.setPath { u with OmitHost := true } rest
        else URL.setPath u rest

/-- The function `Parse`.  The `*url.Error` it wraps a failure in is a wrapper
with `Unwrap`; its text here omits the quoted URL. -/
def Parse (rawURL : Bytes) : Except GoError URL :=
  match parse (cut (byte '#') rawURL).1 with
  | .error e => .error (GoError.wrapf "parse: " e)
  | .ok u =>
      if (cut (byte '#') rawURL).2 = [] then .ok u
      else
        match u.setFragment (cut (byte '#') rawURL).2 with
        | .error e => .error (GoError.wrapf "parse: " e)
        | .ok u => .ok u

/-- The function `validEncoded`. -/
def validEncoded (mode : encoding) (s : Bytes) : Bool :=
  s.all fun c =>
    decide (c ∈ [byte '!', byte '$', byte '&', byte '\'', byte '(', byte ')', byte '*',
      byte '+', byte ',', byte ';', byte '=', byte ':', byte '@', byte '[', byte ']',
      byte '%']) || !shouldEscape c mode

/-- Whether `unescape` succeeds on `raw` and gives `text`. -/
def unescapesTo (mode : encoding) (raw text : Bytes) : Bool :=
  match unescape mode raw with
  | .ok p => p = text
  | .error _ => false

/-- The method `EscapedPath`. -/
def URL.EscapedPath (u : URL) : Bytes :=
  if u.RawPath ≠ [] ∧ validEncoded .encodePath u.RawPath ∧
      unescapesTo .encodePath u.RawPath u.Path then u.RawPath
  else if u.Path = [byte '*'] then [byte '*']
  else escape .encodePath u.Path

/-- The method `EscapedFragment`. -/
def URL.EscapedFragment (u : URL) : Bytes :=
  if u.RawFragment ≠ [] ∧ validEncoded .encodeFragment u.RawFragment ∧
      unescapesTo .encodeFragment u.RawFragment u.Fragment then u.RawFragment
  else escape .encodeFragment u.Fragment

/-- The method `String` of `Userinfo`. -/
def Userinfo.String (ui : Userinfo) : Bytes :=
  escape .encodeUserPassword ui.username ++
    (if ui.passwordSet then byte ':' :: escape .encodeUserPassword ui.password else [])

/-- The method `String` of `URL`. -/
def URL.String (u : URL) : Bytes :=
  let scheme : Bytes := if u.Scheme ≠ [] then u.Scheme ++ [byte ':'] else []
  let body : Bytes :=
    if u.Opaque ≠ [] then scheme ++ u.Opaque
    else
      let authority : Bytes :=
        if u.Scheme ≠ [] ∨ u.Host ≠ [] ∨ u.User.isSome then
          if u.OmitHost ∧ u.Host = [] ∧ u.User.isNone then []
          else
            (if u.Host ≠ [] ∨ u.Path ≠ [] ∨ u.User.isSome then [byte '/', byte '/'] else []) ++
            (match u.User with
             | some ui => ui.String ++ [byte '@']
             | none => []) ++
            (if u.Host ≠ [] then escape .encodeHost u.Host else [])
        else []
      let path := u.EscapedPath
      let slash : Bytes :=
        if path ≠ [] ∧ path.head? ≠ some (byte '/') ∧ u.Host ≠ [] then [byte '/'] else []
      let dot : Bytes :=
        if scheme ++ authority ++ slash = [] ∧ byte ':' ∈ (cut (byte '/') path).1 then
          [byte '.', byte '/']
        else []
      scheme ++ authority ++ slash ++ dot ++ path
  body ++
    (if u.ForceQuery ∨ u.RawQuery ≠ [] then byte '?' :: u.RawQuery else []) ++
    (if u.Fragment ≠ [] then byte '#' :: u.EscapedFragment else [])

/-- The function `removeEmptyPort` of `net/http`: a host that ends in the colon
of an empty port loses that colon. -/
def removeEmptyPort (host : Bytes) : Bytes :=
  let hasPort : Bool :=
    match cutLast (byte ':') host with
    | none => false
    | some (_, afterColon) => byte ']' ∉ afterColon
  if hasPort ∧ host.getLast? = some (byte ':') then host.dropLast else host

/-! ## account.go: data -/

/-- The struct `accountResponse`. -/
structure accountResponse where
  Url : String
  Name : String
  Sandbox : Bool
  Subdomain : String
  TimeFormat : Int
  TimeZone : String
  OwnerID : Int
  Multiproduct : Bool
  deriving DecidableEq

/-- The composite literal `accountResponse{}`. -/
def accountResponse.zero : accountResponse :=
  { Url := "", Name := "", Sandbox := false, Subdomain := "",
    TimeFormat := 0, TimeZone := "", OwnerID := 0, Multiproduct := false }

/-- An `io.ReadCloser` as `ioutil.ReadAll` sees it: the bytes it yields before
it stops, as text, and the error it stops with (`none` for `io.EOF`).  Readers
that never stop and bytes that are not UTF-8 are outside the embedding. -/
structure Body where
  data : String
  readErr : Option GoError
  deriving DecidableEq

/-- The function `ioutil.ReadAll`. -/
def ReadAll (b : Body) : String × Option GoError :=
  (b.data, b.readErr)

/-- The fields of `http.Response` the package reads; `Body` is an interface
value and may be nil. -/
structure Response where
  StatusCode : Int
  Body : Option Body
  deriving DecidableEq

/-- The fields of `http.Request` that `http.NewRequest` fills from its
arguments: the method, the parsed URL and the body. -/
structure Request where
  Method : String
  URL : URL
  Body : Option String
  deriving DecidableEq

/-- The pair `(*http.Response, error)` returned by `Do`; either component may
be nil. -/
structure DoResult where
  resp : Option Response
  err : Option GoError
  deriving DecidableEq

/-- The interface `doer`, for a transport whose state is of type `σ`: `Do`
answers a request and leaves the transport in a new state. -/
abbrev doer (σ : Type) := Request → σ → DoResult × σ

/-- The struct `gateway`.  Its `client` is a transport; a gateway built with the
nil interface as `client` is outside the embedding. -/
structure gateway (σ : Type) where
  client : doer σ
  subdomain : String
  host : String

/-- The function `NewGateway`. -/
def NewGateway {σ : Type} (client : doer σ) (subdomain host : String) :
    gateway σ × Option GoError :=
  ({ client := client, subdomain := subdomain, host := host }, none)

/-- Behaviour of the standard library the package calls into. -/
structure Lib where
  /-- The function `url.Parse`. -/
  Parse : Bytes → Except GoError URL
  /-- The call `json.Unmarshal(body, &result)`: the record left in `result` and
  the returned error. -/
  unmarshal : String → accountResponse → accountResponse × Option GoError

/-- The constant `http.MethodGet`. -/
def MethodGet : String := "GET"

/-- The table `isTokenTable` of `httpguts`: the characters of an HTTP token. -/
def isTokenRune (c : Char) : Bool :=
  isAlnum c.toNat ||
    decide (c.toNat ∈ [33, 35, 36, 37, 38, 39, 42, 43, 45, 46, 94, 95, 96, 124, 126])

/-- The function `validMethod` of `net/http`. -/
def validMethod (method : String) : Bool :=
  !method.data.isEmpty && method.data.all isTokenRune

/-- The function `http.NewRequest` with a nil body: the method is checked, the
URL is parsed and an empty port is dropped from its host.  The quoting of the
method in the text of the error is left out. -/
def NewRequest (lib : Lib) (method url : String) : Except GoError Request :=
  let method := if method = "" then "GET" else method
  if ¬ validMethod method then
    .error (GoError.other ("net/http: invalid method " ++ method))
  else
    match lib.Parse (utf8 url) with
    | .error err => .error err
    | .ok u =>
        .ok { Method := method, URL := { u with Host := removeEmptyPort u.Host }, Body := none }

/-- How a call ends. -/
inductive Outcome (α : Type) where
  | returned (v : α)
  | panicked (reason : String)
  deriving DecidableEq

/-- A call of a gateway method: the state it leaves the transport in, and how
it ended. -/
structure Run (σ α : Type) where
  transport : σ
  outcome : Outcome α
  deriving DecidableEq

/-- The reason of the panic raised by a nil dereference. -/
def nilDeref : String :=
  "runtime error: invalid memory address or nil pointer dereference"

/-! ## account.go: operations -/

/-- The format `"http://%s.%s.com/api/v2/account.json"` applied to two strings. -/
def requestUrl (subdomain host : String) : String :=
  "http://" ++ subdomain ++ "." ++ host ++ ".com/api/v2/account.json"

/-- The method `account`, called with the transport in state `st`.  The
selector `resp.StatusCode` dereferences `resp`, and `ioutil.ReadAll` calls
`Read` on `resp.Body`; either panics on nil. -/
def account {σ : Type} (lib : Lib) (g : gateway σ) (st : σ) :
    Run σ (accountResponse × Option GoError) :=
  let result := accountResponse.zero
  match NewRequest lib MethodGet (requestUrl g.subdomain g.host) with
  | .error err =>
      { transport := st,
        outcome := .returned (result,
          some (GoError.join GoError.ErrUnexpected (GoError.wrapf "http.NewRequest: " err))) }
  | .ok req =>
      match g.client req st with
      | ({ resp := _, err := some err }, st) =>
          { transport := st,
            outcome := .returned (result,
              some (GoError.join GoError.ErrUnexpected (GoError.wrapf "g.client.Do: " err))) }
      | ({ resp := none, err := none }, st) =>
          { transport := st, outcome := .panicked nilDeref }
      | ({ resp := some resp, err := none }, st) =>
          if resp.StatusCode ≠ StatusOK then
            { transport := st,
              outcome := .returned (result, some (convertToError resp.StatusCode)) }
          else
            match resp.Body with
            | none => { transport := st, outcome := .panicked nilDeref }
            | some rc =>
                match ReadAll rc with
                | (_, some err) =>
                    { transport := st,
                      outcome := .returned (result,
                        some (GoError.join GoError.ErrUnexpected
                          (GoError.wrapf "ioutil.ReadAll: " err))) }
                | (body, none) =>
                    match lib.unmarshal body result with
                    | (result, some err) =>
                        { transport := st,
                          outcome := .returned (result,
                            some (GoError.join GoError.ErrUnexpected
                              (GoError.wrapf "json.Unmarshal: " err))) }
                    | (result, none) =>
                        { transport := st, outcome := .returned (result, none) }

/-- The method `Url`, called with the transport in state `st`. -/
def Url {σ : Type} (lib : Lib) (g : gateway σ) (st : σ) : Run σ (String × Option GoError) :=
  match account lib g st with
  | { transport := st, outcome := .panicked reason } =>
      { transport := st, outcome := .panicked reason }
  | { transport := st, outcome := .returned (_, some err) } =>
      { transport := st, outcome := .returned ("", some (GoError.wrapf "g.account(): " err)) }
  | { transport := st, outcome := .returned (resp, none) } =>
      if resp.Url = "" then
        { transport := st,
          outcome := .returned ("",
            some (GoError.join GoError.ErrUnexpected
              (GoError.wrapf "g.account(): " GoError.ErrNotFound))) }
      else
        { transport := st, outcome := .returned (resp.Url, none) }

/-- The method `Subdomain`, called with the transport in state `st`. -/
def Subdomain {σ : Type} (lib : Lib) (g : gateway σ) (st : σ) :
    Run σ (String × Option GoError) :=
  match account lib g st with
  | { transport := st, outcome := .panicked reason } =>
      { transport := st, outcome := .panicked reason }
  | { transport := st, outcome := .returned (_, some err) } =>
      { transport := st, outcome := .returned ("", some (GoError.wrapf "g.account(): " err)) }
  | { transport := st, outcome := .returned (resp, none) } =>
      if resp.Subdomain = "" then
        { transport := st,
          outcome := .returned ("",
            some (GoError.join GoError.ErrUnexpected
              (GoError.wrapf "g.account(): " GoError.ErrNotFound))) }
      else
        { transport := st, outcome := .returned (resp.Subdomain, none) }

/-! ## A model of `encoding/json` for `accountResponse` -/

/-- A JSON value as the decoder of a struct of scalars needs it: scalars with
their content, arrays and objects by kind only. -/
inductive JSONValue where
  | null
  | bool (b : Bool)
  | number (lit : List Char)
  | string (s : List Char)
  | array
  | object
  deriving DecidableEq

/-- The white space of the scanner. -/
def isSpace (c : Char) : Bool :=
  c = ' ' || c = '\t' || c = '\r' || c = '\n'

/-- Drops leading white space. -/
def skipSpace : List Char → List Char
  | [] => []
  | c :: cs => if isSpace c then skipSpace cs else c :: cs

/-- The value of a hexadecimal digit. -/
def hexVal (c : Char) : Option Nat :=
  if '0' ≤ c ∧ c ≤ '9' then some (c.toNat - '0'.toNat)
  else if 'a' ≤ c ∧ c ≤ 'f' then some (c.toNat - 'a'.toNat + 10)
  else if 'A' ≤ c ∧ c ≤ 'F' then some (c.toNat - 'A'.toNat + 10)
  else none

/-- The function `getu4`: the code unit of a leading `\uXXXX`. -/
def getu4 : List Char → Option Nat
  | '\\' :: 'u' :: a :: b :: c :: d :: _ =>
      match hexVal a, hexVal b, hexVal c, hexVal d with
      | some a, some b, some c, some d => some (((a * 16 + b) * 16 + c) * 16 + d)
      | _, _, _, _ => none
  | _ => none

/-- The rune `unicode.ReplacementChar`. -/
def replacementChar : Char := Char.ofNat 0xFFFD

/-- The character a single-letter escape stands for. -/
def jsonEscape (e : Char) : Option Char :=
  if e = '\"' then some '\"'
  else if e = '\\' then some '\\'
  else if e = '/' then some '/'
  else if e = 'b' then some (Char.ofNat 8)
  else if e = 'f' then some (Char.ofNat 12)
  else if e = 'n' then some '\n'
  else if e = 'r' then some '\r'
  else if e = 't' then some '\t'
  else none

/-- A string literal after its opening quote: the decoded text (as `unquote`
gives it) and the input after the closing quote. -/
def scanString : Nat → List Char → Option (List Char × List Char)
  | 0, _ => none
  | _ + 1, [] => none
  | fuel + 1, c :: cs =>
      if c = '\"' then some ([], cs)
      else if c = '\\' then
        match cs with
        | [] => none
        | e :: rest =>
            if e = 'u' then
              match getu4 (c :: cs) with
              | none => none
              | some rr =>
                  let rest4 := rest.drop 4
                  if 0xD800 ≤ rr ∧ rr < 0xE000 then
                    match getu4 rest4 with
                    | some rr1 =>
                        if rr < 0xDC00 ∧ 0xDC00 ≤ rr1 ∧ rr1 < 0xE000 then
                          (scanString fuel (rest4.drop 6)).map fun (s, r) =>
                            (Char.ofNat ((rr - 0xD800) * 0x400 + (rr1 - 0xDC00) + 0x10000) :: s, r)
                        else
                          (scanString fuel rest4).map fun (s, r) => (replacementChar :: s, r)
                    | none =>
                        (scanString fuel rest4).map fun (s, r) => (replacementChar :: s, r)
                  else
                    (scanString fuel rest4).map fun (s, r) => (Char.ofNat rr :: s, r)
            else
              match jsonEscape e with
              | none => none
              | some d => (scanString fuel rest).map fun (s, r) => (d :: s, r)
      else if c.toNat < 0x20 then none
      else (scanString fuel cs).map fun (s, r) => (c :: s, r)

/-- The longest run of decimal digits at the head of the input. -/
def takeDigits : List Char → List Char × List Char
  | [] => ([], [])
  | c :: cs =>
      if c.isDigit then
        let (d, r) := takeDigits cs
        (c :: d, r)
      else ([], c :: cs)

/-- The integer part of a number literal: `0` or a digit run without leading
zero. -/
def scanInt : List Char → Option (List Char × List Char)
  | [] => none
  | c :: cs =>
      if c = '0' then some (['0'], cs)
      else if c.isDigit then
        let (d, r) := takeDigits cs
        some (c :: d, r)
      else none

/-- The optional fraction of a number literal. -/
def scanFrac : List Char → Option (List Char × List Char)
  | '.' :: cs =>
      match takeDigits cs with
      | ([], _) => none
      | (d, r) => some ('.' :: d, r)
  | cs => some ([], cs)

/-- The optional exponent of a number literal. -/
def scanExp : List Char → Option (List Char × List Char)
  | [] => some ([], [])
  | e :: cs =>
      if e = 'e' ∨ e = 'E' then
        let (sign, cs1) :=
          match cs with
          | [] => ([], [])
          | s :: r => if s = '+' ∨ s = '-' then ([s], r) else ([], s :: r)
        match takeDigits cs1 with
        | ([], _) => none
        | (d, r) => some (e :: sign ++ d, r)
      else some ([], e :: cs)

/-- A number literal: its text and the input after it. -/
def scanNumber (cs : List Char) : Option (List Char × List Char) :=
  let (sign, cs1) :=
    match cs with
    | [] => ([], [])
    | s :: r => if s = '-' then ([s], r) else ([], s :: r)
  match scanInt cs1 with
  | none => none
  | some (i, cs2) =>
      match scanFrac cs2 with
      | none => none
      | some (f, cs3) =>
          match scanExp cs3 with
          | none => none
          | some (x, cs4) => some (sign ++ i ++ f ++ x, cs4)

/-- Drops `word` from the head of the input when the input starts with it. -/
def dropWord : List Char → List Char → Option (List Char)
  | [], cs => some cs
  | _ :: _, [] => none
  | w :: ws, c :: cs => if w = c then dropWord ws cs else none

/-- The constant `maxNestingDepth` of the scanner. -/
def maxNestingDepth : Nat := 10000

mutual

/-- One JSON value at the head of the input (no leading white space), inside
`depth` arrays and objects: the value and the input after it. -/
def scanValue : Nat → Nat → List Char → Option (JSONValue × List Char)
  | 0, _, _ => none
  | _ + 1, _, [] => none
  | fuel + 1, depth, c :: cs =>
      if c = '\x7b' then
        if depth + 1 > maxNestingDepth then none
        else
          match skipSpace cs with
          | [] => none
          | k :: r =>
              if k = '\x7d' then some (JSONValue.object, r)
              else (scanMembers fuel (depth + 1) (k :: r)).map fun (_, r) => (JSONValue.object, r)
      else if c = '[' then
        if depth + 1 > maxNestingDepth then none
        else
          match skipSpace cs with
          | [] => none
          | k :: r =>
              if k = ']' then some (JSONValue.array, r)
              else (scanElements fuel (depth + 1) (k :: r)).map fun r => (JSONValue.array, r)
      else if c = '\"' then
        (scanString (cs.length + 1) cs).map fun (s, r) => (JSONValue.string s, r)
      else if c = 't' then
        (dropWord "rue".data cs).map fun r => (JSONValue.bool true, r)
      else if c = 'f' then
        (dropWord "alse".data cs).map fun r => (JSONValue.bool false, r)
      else if c = 'n' then
        (dropWord "ull".data cs).map fun r => (JSONValue.null, r)
      else
        (scanNumber (c :: cs)).map fun (lit, r) => (JSONValue.number lit, r)

/-- The elements of a non-empty array up to and including its `]`: the input
after it. -/
def scanElements : Nat → Nat → List Char → Option (List Char)
  | 0, _, _ => none
  | fuel + 1, depth, cs =>
      match scanValue fuel depth cs with
      | none => none
      | some (_, r) =>
          match skipSpace r with
          | [] => none
          | k :: r =>
              if k = ']' then some r
              else if k = ',' then scanElements fuel depth (skipSpace r)
              else none

/-- The members of a non-empty object up to and including its `}`: the keys
with their values, in order, and the input after it. -/
def scanMembers : Nat → Nat → List Char →
    Option (List (List Char × JSONValue) × List Char)
  | 0, _, _ => none
  | _ + 1, _, [] => none
  | fuel + 1, depth, q :: cs =>
      if q = '\"' then
        match scanString (cs.length + 1) cs with
        | none => none
        | some (key, r) =>
            match skipSpace r with
            | [] => none
            | colon :: r =>
                if colon = ':' then
                  match scanValue fuel depth (skipSpace r) with
                  | none => none
                  | some (v, r) =>
                      match skipSpace r with
                      | [] => none
                      | k :: r =>
                          if k = '\x7d' then some ([(key, v)], r)
                          else if k = ',' then
                            (scanMembers fuel depth (skipSpace r)).map fun (ms, r) =>
                              ((key, v) :: ms, r)
                          else none
                else none
      else none

end

/-- A whole document: its top-level value, with the members when that value is
an object; `none` when the input is not one JSON value between white space
(where `checkValid` reports a `SyntaxError`). -/
def scanDocument (data : List Char) : Option (JSONValue × List (List Char × JSONValue)) :=
  let fuel := 2 * data.length + 2
  match skipSpace data with
  | [] => none
  | c :: cs =>
      if c = '\x7b' then
        match skipSpace cs with
        | [] => none
        | k :: r =>
            if k = '\x7d' then
              if skipSpace r = [] then some (JSONValue.object, []) else none
            else
              match scanMembers fuel 1 (k :: r) with
              | none => none
              | some (ms, r) => if skipSpace r = [] then some (JSONValue.object, ms) else none
      else
        match scanValue fuel 0 (c :: cs) with
        | none => none
        | some (v, r) => if skipSpace r = [] then some (v, []) else none


/-- The fields of `accountResponse`. -/
inductive Field where
  | Url | Name | Sandbox | Subdomain | TimeFormat | TimeZone | OwnerID | Multiproduct
  deriving DecidableEq

/-- The name in the `json` tag of a field. -/
def Field.tag : Field → String
  | .Url => "url"
  | .Name => "name"
  | .Sandbox => "sandbox"
  | .Subdomain => "subdomain"
  | .TimeFormat => "time_format"
  | .TimeZone => "time_zone"
  | .OwnerID => "owner_id"
  | .Multiproduct => "multiproduct"

/-- The Go type of a field, as `reflect.Type.String` prints it. -/
def Field.type : Field → String
  | .Url | .Name | .Subdomain | .TimeZone => "string"
  | .Sandbox | .Multiproduct => "bool"
  | .TimeFormat | .OwnerID => "int64"

/-- The fields in declaration order. -/
def Field.all : List Field :=
  [.Url, .Name, .Sandbox, .Subdomain, .TimeFormat, .TimeZone, .OwnerID, .Multiproduct]

/-- Case folding of one character of a key.  ASCII letters fold to upper case;
the long s and the Kelvin sign are the two other characters whose fold is an
ASCII letter.  Every other character is left as it is: its fold is not ASCII
and the tags are. -/
def foldChar (c : Char) : Char :=
  if 'a' ≤ c ∧ c ≤ 'z' then Char.ofNat (c.toNat - 32)
  else if c = Char.ofNat 0x17F then 'S'
  else if c = Char.ofNat 0x212A then 'K'
  else c

/-- The function `foldName`. -/
def foldName (s : List Char) : List Char :=
  s.map foldChar

/-- The field a key of the object decodes into: the one with that tag, or else
the one whose tag is equal to the key under case folding. -/
def lookupField (key : List Char) : Option Field :=
  match Field.all.find? (fun f => f.tag.data = key) with
  | some f => some f
  | none => Field.all.find? (fun f => foldName f.tag.data = foldName key)

/-- The field `Value` of an `UnmarshalTypeError` for a JSON value. -/
def JSONValue.describe : JSONValue → String
  | .null => "null"
  | .bool _ => "bool"
  | .number _ => "number"
  | .string _ => "string"
  | .array => "array"
  | .object => "object"

/-- The text of an `UnmarshalTypeError` raised at a struct field. -/
def fieldTypeError (value : String) (f : Field) : GoError :=
  GoError.other ("json: cannot unmarshal " ++ value ++ " into Go struct field accountResponse."
    ++ f.tag ++ " of type " ++ f.type)

/-- The value of a run of decimal digits. -/
def digitsVal (ds : List Char) : Nat :=
  ds.foldl (fun n c => 10 * n + (c.toNat - '0'.toNat)) 0

/-- The function `strconv.ParseInt(lit, 10, 64)` on a JSON number literal. -/
def parseInt64 (lit : List Char) : Option Int :=
  let (neg, ds) :=
    match lit with
    | [] => (false, [])
    | s :: r => if s = '-' then (true, r) else (false, s :: r)
  if ds ≠ [] ∧ ds.all Char.isDigit then
    let n : Int := if neg then -(digitsVal ds : Int) else (digitsVal ds : Int)
    if -9223372036854775808 ≤ n ∧ n ≤ 9223372036854775807 then some n else none
  else none

/-- Stores a JSON value in a `string` field. -/
def storeString (v : JSONValue) (f : Field) (old : String) : String × Option GoError :=
  match v with
  | .null => (old, none)
  | .string s => (String.mk s, none)
  | v => (old, some (fieldTypeError v.describe f))

/-- Stores a JSON value in a `bool` field. -/
def storeBool (v : JSONValue) (f : Field) (old : Bool) : Bool × Option GoError :=
  match v with
  | .null => (old, none)
  | .bool b => (b, none)
  | v => (old, some (fieldTypeError v.describe f))

/-- Stores a JSON value in an `int64` field. -/
def storeInt64 (v : JSONValue) (f : Field) (old : Int) : Int × Option GoError :=
  match v with
  | .null => (old, none)
  | .number lit =>
      match parseInt64 lit with
      | some n => (n, none)
      | none => (old, some (fieldTypeError ("number " ++ String.mk lit) f))
  | v => (old, some (fieldTypeError v.describe f))

/-- Stores the value of one member in the field its key names. -/
def storeField (r : accountResponse) (f : Field) (v : JSONValue) :
    accountResponse × Option GoError :=
  match f with
  | .Url => let (x, e) := storeString v f r.Url; ({ r with Url := x }, e)
  | .Name => let (x, e) := storeString v f r.Name; ({ r with Name := x }, e)
  | .Sandbox => let (x, e) := storeBool v f r.Sandbox; ({ r with Sandbox := x }, e)
  | .Subdomain => let (x, e) := storeString v f r.Subdomain; ({ r with Subdomain := x }, e)
  | .TimeFormat => let (x, e) := storeInt64 v f r.TimeFormat; ({ r with TimeFormat := x }, e)
  | .TimeZone => let (x, e) := storeString v f r.TimeZone; ({ r with TimeZone := x }, e)
  | .OwnerID => let (x, e) := storeInt64 v f r.OwnerID; ({ r with OwnerID := x }, e)
  | .Multiproduct =>
      let (x, e) := storeBool v f r.Multiproduct; ({ r with Multiproduct := x }, e)

/-- Decodes the members of an object into the record, in order.  A member
whose key names no field is skipped; a member whose value does not fit its
field is skipped and the first such error is kept (`saveError`). -/
def decodeMembers (r : accountResponse) (saved : Option GoError) :
    List (List Char × JSONValue) → accountResponse × Option GoError
  | [] => (r, saved)
  | (key, v) :: ms =>
      match lookupField key with
      | none => decodeMembers r saved ms
      | some f =>
          let (r1, e) := storeField r f v
          decodeMembers r1 (if saved.isSome then saved else e) ms

/-- A model of `json.Unmarshal(data, &v)` for `v` of type `accountResponse` and
`data` that is valid UTF-8: the record left in `v` and the returned error.  The
text of a `SyntaxError` is not modelled. -/
def jsonUnmarshal (data : String) (v : accountResponse) : accountResponse × Option GoError :=
  match scanDocument data.data with
  | none => (v, some (GoError.other "json: syntax error"))
  | some (.null, _) => (v, none)
  | some (.object, ms) => decodeMembers v none ms
  | some (val, _) =>
      (v, some (GoError.other ("json: cannot unmarshal " ++ val.describe
        ++ " into Go value of type zendesk.accountResponse")))

/-! ## The standard library and the test fixtures -/

/-- The standard library: `url.Parse` is `Parse` and `json.Unmarshal` is
`jsonUnmarshal`. -/
def stdlib : Lib :=
  { Parse := Parse, unmarshal := jsonUnmarshal }

/-- A mock transport that answers every request with `r` and keeps, as its
state, the requests it was given, in order. -/
def constDoer (r : DoResult) : doer (List Request) :=
  fun req received => (r, received ++ [req])

/-- A mock transport answering `200 OK` with the given body, fully readable. -/
def okDoer (body : String) : doer (List Request) :=
  constDoer { resp := some { StatusCode := StatusOK, Body := some { data := body, readErr := none } },
              err := none }

/-- The gateway of the package tests, `NewGateway(client, "subdomain", "host")`. -/
def testGateway {σ : Type} (client : doer σ) : gateway σ :=
  (NewGateway client "subdomain" "host").1

/-- The body of the happy path of `TestUrl`. -/
def urlBody : String := "\x7b\"url\": \"https://test.zendesk.com\"\x7d"

/-- The body of the happy path of `TestSubdomain`. -/
def subdomainBody : String := "\x7b\"subdomain\": \"subdomain\"\x7d"

/-- The body of the test case `empty url value`. -/
def emptyBody : String := "\x7b\x7d"

/-- The body of the test case `invalid response body`. -/
def invalidBody : String := "not a json payload"

/-- A syntactically valid body whose `owner_id` is a JSON string. -/
def mistypedBody : String :=
  "\x7b\"url\": \"https://test.zendesk.com\", \"owner_id\": \"12\"\x7d"

/-- The request the package tests expect the transport to receive:
`http.NewRequest(http.MethodGet, "http://subdomain.host.com/api/v2/account.json", nil)`. -/
def testRequest : Request :=
  { Method := "GET",
    URL := { Scheme := utf8 "http", Host := utf8 "subdomain.host.com",
             Path := utf8 "/api/v2/account.json" },
    Body := none }

/-! ## Specification predicates -/

/-- The common body of `Url` and `Subdomain`, with the field they read as an
argument; `Url_eq_fetchField` and `Subdomain_eq_fetchField` relate it to the
two methods. -/
def fetchField {σ : Type} (field : accountResponse → String) (lib : Lib) (g : gateway σ)
    (st : σ) : Run σ (String × Option GoError) :=
  match account lib g st with
  | { transport := st, outcome := .panicked reason } =>
      { transport := st, outcome := .panicked reason }
  | { transport := st, outcome := .returned (_, some err) } =>
      { transport := st, outcome := .returned ("", some (GoError.wrapf "g.account(): " err)) }
  | { transport := st, outcome := .returned (resp, none) } =>
      if field resp = "" then
        { transport := st,
          outcome := .returned ("",
            some (GoError.join GoError.ErrUnexpected
              (GoError.wrapf "g.account(): " GoError.ErrNotFound))) }
      else
        { transport := st, outcome := .returned (field resp, none) }

/-- The accessor contract on how a call ends: a non-empty value with a nil
error, or the empty string with an error that `IsErrNotFound` or
`isErrUnexpected` recognises.  A call that panics returns neither. -/
def valueOrClassified : Outcome (String × Option GoError) → Prop
  | .returned (s, none) => s ≠ ""
  | .returned (s, some err) =>
      s = "" ∧ (IsErrNotFound (some err) = true ∨ isErrUnexpected (some err) = true)
  | .panicked _ => False

/-- A result of `Do` that `account` can use without dereferencing nil: an
error, or a response that carries a body when its status is 200. -/
def DoResult.usable (r : DoResult) : Prop :=
  r.err ≠ none ∨ ∃ resp, r.resp = some resp ∧ (resp.StatusCode = StatusOK → resp.Body ≠ none)

/-- The function `strings.Contains`. -/
def stringsContains (s substr : String) : Prop :=
  substr.data <:+: s.data

/-- The transport, asked in state `st`, returned a response with status 404
and no error to the request built from the gateway. -/
def answered404 {σ : Type} (lib : Lib) (g : gateway σ) (st : σ) : Prop :=
  ∃ req resp, NewRequest lib MethodGet (requestUrl g.subdomain g.host) = .ok req ∧
    (g.client req st).1 = { resp := some resp, err := none } ∧
    resp.StatusCode = StatusNotFound

/-- The path of the account endpoint, `/api/v2/account.json`. -/
def accountPath : Bytes :=
  utf8 "/api/v2/account.json"

/-- A byte that `net/url` reads as part of a host name and prints as it is: an
ASCII letter or digit, `-`, `.`, `_` or `~`. -/
def hostSafeByte (c : Nat) : Bool :=
  isAlnum c || c = byte '-' || c = byte '.' || c = byte '_' || c = byte '~'

/-- A text made of ASCII letters, digits, `-`, `.`, `_` and `~` only. -/
def hostSafe (s : String) : Prop :=
  ∀ c ∈ s.data, c.toNat < 0x80 ∧ hostSafeByte c.toNat = true

instance : DecidablePred valueOrClassified := fun o =>
  match o with
  | .returned (s, none) => inferInstanceAs (Decidable (s ≠ ""))
  | .returned (s, some err) =>
      inferInstanceAs (Decidable
        (s = "" ∧ (IsErrNotFound (some err) = true ∨ isErrUnexpected (some err) = true)))
  | .panicked _ => inferInstanceAs (Decidable False)

instance (s substr : String) : Decidable (stringsContains s substr) :=
  inferInstanceAs (Decidable (substr.data <:+: s.data))

instance (s : String) : Decidable (hostSafe s) :=
  inferInstanceAs (Decidable (∀ c ∈ s.data, c.toNat < 0x80 ∧ hostSafeByte c.toNat = true))

/-- The paths through `account` called with the transport in state `st`: what
the library and the transport did on this call. -/
inductive Path {σ : Type} (lib : Lib) (g : gateway σ) (st : σ) : Prop where
  | newRequestError (e : GoError)
      (hreq : NewRequest lib MethodGet (requestUrl g.subdomain g.host) = .error e)
  | doError (req : Request) (r : Option Response) (e : GoError)
      (hreq : NewRequest lib MethodGet (requestUrl g.subdomain g.host) = .ok req)
      (hdo : (g.client req st).1 = { resp := r, err := some e })
  | nilResponse (req : Request)
      (hreq : NewRequest lib MethodGet (requestUrl g.subdomain g.host) = .ok req)
      (hdo : (g.client req st).1 = { resp := none, err := none })
  | status (req : Request) (resp : Response)
      (hreq : NewRequest lib MethodGet (requestUrl g.subdomain g.host) = .ok req)
      (hdo : (g.client req st).1 = { resp := some resp, err := none })
      (hs : resp.StatusCode ≠ StatusOK)
  | nilBody (req : Request) (resp : Response)
      (hreq : NewRequest lib MethodGet (requestUrl g.subdomain g.host) = .ok req)
      (hdo : (g.client req st).1 = { resp := some resp, err := none })
      (hs : resp.StatusCode = StatusOK) (hb : resp.Body = none)
  | readError (req : Request) (resp : Response) (b : Body) (e : GoError)
      (hreq : NewRequest lib MethodGet (requestUrl g.subdomain g.host) = .ok req)
      (hdo : (g.client req st).1 = { resp := some resp, err := none })
      (hs : resp.StatusCode = StatusOK) (hb : resp.Body = some b) (hr : b.readErr = some e)
  | unmarshalError (req : Request) (resp : Response) (b : Body) (rec : accountResponse)
      (e : GoError)
      (hreq : NewRequest lib MethodGet (requestUrl g.subdomain g.host) = .ok req)
      (hdo : (g.client req st).1 = { resp := some resp, err := none })
      (hs : resp.StatusCode = StatusOK) (hb : resp.Body = some b) (hr : b.readErr = none)
      (hu : lib.unmarshal b.data accountResponse.zero = (rec, some e))
  | ok (req : Request) (resp : Response) (b : Body) (rec : accountResponse)
      (hreq : NewRequest lib MethodGet (requestUrl g.subdomain g.host) = .ok req)
      (hdo : (g.client req st).1 = { resp := some resp, err := none })
      (hs : resp.StatusCode = StatusOK) (hb : resp.Body = some b) (hr : b.readErr = none)
      (hu : lib.unmarshal b.data accountResponse.zero = (rec, none))

/-- The failures of an accessor reading `field` other than a 404 answer, for a
call with the transport in state `st`: request construction, transport error,
a status that is neither 200 nor 404, body read, JSON parse, empty field. -/
inductive otherFailure {σ : Type} (field : accountResponse → String) (lib : Lib)
    (g : gateway σ) (st : σ) : Prop where
  | requestConstruction (e : GoError)
      (hreq : NewRequest lib MethodGet (requestUrl g.subdomain g.host) = .error e)
  | transportError (req : Request) (r : Option Response) (e : GoError)
      (hreq : NewRequest lib MethodGet (requestUrl g.subdomain g.host) = .ok req)
      (hdo : (g.client req st).1 = { resp := r, err := some e })
  | status (req : Request) (resp : Response)
      (hreq : NewRequest lib MethodGet (requestUrl g.subdomain g.host) = .ok req)
      (hdo : (g.client req st).1 = { resp := some resp, err := none })
      (h200 : resp.StatusCode ≠ 200) (h404 : resp.StatusCode ≠ 404)
  | bodyRead (req : Request) (resp : Response) (b : Body) (e : GoError)
      (hreq : NewRequest lib MethodGet (requestUrl g.subdomain g.host) = .ok req)
      (hdo : (g.client req st).1 = { resp := some resp, err := none })
      (hs : resp.StatusCode = 200) (hb : resp.Body = some b) (hr : b.readErr = some e)
  | jsonParse (req : Request) (resp : Response) (b : Body) (rec : accountResponse)
      (e : GoError)
      (hreq : NewRequest lib MethodGet (requestUrl g.subdomain g.host) = .ok req)
      (hdo : (g.client req st).1 = { resp := some resp, err := none })
      (hs : resp.StatusCode = 200) (hb : resp.Body = some b) (hr : b.readErr = none)
      (hu : lib.unmarshal b.data accountResponse.zero = (rec, some e))
  | emptyField (req : Request) (resp : Response) (b : Body) (rec : accountResponse)
      (hreq : NewRequest lib MethodGet (requestUrl g.subdomain g.host) = .ok req)
      (hdo : (g.client req st).1 = { resp := some resp, err := none })
      (hs : resp.StatusCode = 200) (hb : resp.Body = some b) (hr : b.readErr = none)
      (hu : lib.unmarshal b.data accountResponse.zero = (rec, none))
      (hf : field rec = "")

/-! ## Lemmas on errors -/

theorem isErrUnexpected_join_left (e : GoError) :
    isErrUnexpected (some (GoError.join GoError.ErrUnexpected e)) = true := by
  simp [isErrUnexpected, errorsIs, errorsIsTree]

theorem isErrUnexpected_wrapf (label : String) (e : GoError) :
    isErrUnexpected (some (GoError.wrapf label e)) = isErrUnexpected (some e) := by
  simp [isErrUnexpected, errorsIs, errorsIsTree]

theorem IsErrNotFound_wrapf (label : String) (e : GoError) :
    IsErrNotFound (some (GoError.wrapf label e)) = IsErrNotFound (some e) := by
  simp [IsErrNotFound, errorsIs, errorsIsTree]

theorem IsErrNotFound_join_unexpected (e : GoError) :
    IsErrNotFound (some (GoError.join GoError.ErrUnexpected e)) = IsErrNotFound (some e) := by
  simp [IsErrNotFound, errorsIs, errorsIsTree]

theorem IsErrNotFound_sentinel : IsErrNotFound (some GoError.ErrNotFound) = true := by
  simp [IsErrNotFound, errorsIs, errorsIsTree]

theorem isErrUnexpected_notFound : isErrUnexpected (some GoError.ErrNotFound) = false := by
  simp [isErrUnexpected, errorsIs, errorsIsTree]

theorem IsErrNotFound_other (msg : String) : IsErrNotFound (some (GoError.other msg)) = false := by
  simp [IsErrNotFound, errorsIs, errorsIsTree]

theorem convertToError_classified (c : Int) :
    IsErrNotFound (some (convertToError c)) = true ∨
      isErrUnexpected (some (convertToError c)) = true := by
  unfold convertToError
  split
  · exact Or.inl IsErrNotFound_sentinel
  · exact Or.inr (isErrUnexpected_join_left _)

/-! ## Lemmas on `NewRequest` -/

theorem validMethod_get : validMethod "GET" = true := by decide

theorem NewRequest_get (lib : Lib) (url : String) :
    NewRequest lib MethodGet url =
      match lib.Parse (utf8 url) with
      | .error err => .error err
      | .ok u =>
          .ok { Method := "GET", URL := { u with Host := removeEmptyPort u.Host }, Body := none } := by
  have h : (if MethodGet = "" then "GET" else MethodGet) = "GET" := by decide
  simp only [NewRequest, h, validMethod_get, not_true_eq_false, if_false]

theorem NewRequest_ok_iff (lib : Lib) (url : String) (req : Request) :
    NewRequest lib MethodGet url = .ok req ↔
      ∃ u, lib.Parse (utf8 url) = .ok u ∧
        req = { Method := "GET", URL := { u with Host := removeEmptyPort u.Host },
                Body := none } := by
  rw [NewRequest_get]
  cases h : lib.Parse (utf8 url) with
  | error e => simp
  | ok u =>
    constructor
    · intro hq
      injection hq with hq
      exact ⟨u, rfl, hq.symm⟩
    · rintro ⟨u1, hu, rfl⟩
      injection hu with hu
      rw [hu]

/-! ## Lemmas on `account`, one for each path -/

theorem account_newRequest_error {σ : Type} (lib : Lib) (g : gateway σ) (st : σ) (e : GoError)
    (hreq : NewRequest lib MethodGet (requestUrl g.subdomain g.host) = .error e) :
    account lib g st = { transport := st, outcome := .returned (accountResponse.zero,
      some (GoError.join GoError.ErrUnexpected (GoError.wrapf "http.NewRequest: " e))) } := by
  simp [account, hreq]

theorem account_do_error {σ : Type} (lib : Lib) (g : gateway σ) (st : σ) (req : Request)
    (r : Option Response) (e : GoError)
    (hreq : NewRequest lib MethodGet (requestUrl g.subdomain g.host) = .ok req)
    (hdo : (g.client req st).1 = { resp := r, err := some e }) :
    account lib g st =
      { transport := (g.client req st).2,
        outcome := .returned (accountResponse.zero,
          some (GoError.join GoError.ErrUnexpected (GoError.wrapf "g.client.Do: " e))) } := by
  rcases h : g.client req st with ⟨d, st1⟩
  rw [h] at hdo
  subst hdo
  simp [account, hreq, h]

theorem account_nil_response {σ : Type} (lib : Lib) (g : gateway σ) (st : σ) (req : Request)
    (hreq : NewRequest lib MethodGet (requestUrl g.subdomain g.host) = .ok req)
    (hdo : (g.client req st).1 = { resp := none, err := none }) :
    account lib g st = { transport := (g.client req st).2, outcome := .panicked nilDeref } := by
  rcases h : g.client req st with ⟨d, st1⟩
  rw [h] at hdo
  subst hdo
  simp [account, hreq, h]

theorem account_status {σ : Type} (lib : Lib) (g : gateway σ) (st : σ) (req : Request)
    (resp : Response)
    (hreq : NewRequest lib MethodGet (requestUrl g.subdomain g.host) = .ok req)
    (hdo : (g.client req st).1 = { resp := some resp, err := none })
    (hs : resp.StatusCode ≠ StatusOK) :
    account lib g st =
      { transport := (g.client req st).2,
        outcome := .returned (accountResponse.zero, some (convertToError resp.StatusCode)) } := by
  rcases h : g.client req st with ⟨d, st1⟩
  rw [h] at hdo
  subst hdo
  simp [account, hreq, h, hs]

theorem account_nil_body {σ : Type} (lib : Lib) (g : gateway σ) (st : σ) (req : Request)
    (resp : Response)
    (hreq : NewRequest lib MethodGet (requestUrl g.subdomain g.host) = .ok req)
    (hdo : (g.client req st).1 = { resp := some resp, err := none })
    (hs : resp.StatusCode = StatusOK) (hb : resp.Body = none) :
    account lib g st = { transport := (g.client req st).2, outcome := .panicked nilDeref } := by
  rcases h : g.client req st with ⟨d, st1⟩
  rw [h] at hdo
  subst hdo
  simp [account, hreq, h, hs, hb]

theorem account_read_error {σ : Type} (lib : Lib) (g : gateway σ) (st : σ) (req : Request)
    (resp : Response) (b : Body) (e : GoError)
    (hreq : NewRequest lib MethodGet (requestUrl g.subdomain g.host) = .ok req)
    (hdo : (g.client req st).1 = { resp := some resp, err := none })
    (hs : resp.StatusCode = StatusOK) (hb : resp.Body = some b) (hr : b.readErr = some e) :
    account lib g st =
      { transport := (g.client req st).2,
        outcome := .returned (accountResponse.zero,
          some (GoError.join GoError.ErrUnexpected (GoError.wrapf "ioutil.ReadAll: " e))) } := by
  rcases h : g.client req st with ⟨d, st1⟩
  rw [h] at hdo
  subst hdo
  simp [account, hreq, h, hs, hb, ReadAll, hr]

theorem account_unmarshal_error {σ : Type} (lib : Lib) (g : gateway σ) (st : σ) (req : Request)
    (resp : Response) (b : Body) (rec : accountResponse) (e : GoError)
    (hreq : NewRequest lib MethodGet (requestUrl g.subdomain g.host) = .ok req)
    (hdo : (g.client req st).1 = { resp := some resp, err := none })
    (hs : resp.StatusCode = StatusOK) (hb : resp.Body = some b) (hr : b.readErr = none)
    (hu : lib.unmarshal b.data accountResponse.zero = (rec, some e)) :
    account lib g st =
      { transport := (g.client req st).2,
        outcome := .returned (rec,
          some (GoError.join GoError.ErrUnexpected (GoError.wrapf "json.Unmarshal: " e))) } := by
  rcases h : g.client req st with ⟨d, st1⟩
  rw [h] at hdo
  subst hdo
  simp [account, hreq, h, hs, hb, ReadAll, hr, hu]

theorem account_ok {σ : Type} (lib : Lib) (g : gateway σ) (st : σ) (req : Request)
    (resp : Response) (b : Body) (rec : accountResponse)
    (hreq : NewRequest lib MethodGet (requestUrl g.subdomain g.host) = .ok req)
    (hdo : (g.client req st).1 = { resp := some resp, err := none })
    (hs : resp.StatusCode = StatusOK) (hb : resp.Body = some b) (hr : b.readErr = none)
    (hu : lib.unmarshal b.data accountResponse.zero = (rec, none)) :
    account lib g st =
      { transport := (g.client req st).2,
        outcome := .returned (rec, none) } := by
  rcases h : g.client req st with ⟨d, st1⟩
  rw [h] at hdo
  subst hdo
  simp [account, hreq, h, hs, hb, ReadAll, hr, hu]

theorem path_exists {σ : Type} (lib : Lib) (g : gateway σ) (st : σ) : Path lib g st := by
  cases hreq : NewRequest lib MethodGet (requestUrl g.subdomain g.host) with
  | error e => exact .newRequestError e hreq
  | ok req =>
    rcases hdo : (g.client req st).1 with ⟨r, e⟩
    cases e with
    | some e => exact .doError req r e hreq hdo
    | none =>
      cases r with
      | none => exact .nilResponse req hreq hdo
      | some resp =>
        by_cases hs : resp.StatusCode = StatusOK
        · cases hb : resp.Body with
          | none => exact .nilBody req resp hreq hdo hs hb
          | some b =>
            cases hr : b.readErr with
            | some e => exact .readError req resp b e hreq hdo hs hb hr
            | none =>
              rcases hu : lib.unmarshal b.data accountResponse.zero with ⟨rec, e⟩
              cases e with
              | some e => exact .unmarshalError req resp b rec e hreq hdo hs hb hr hu
              | none => exact .ok req resp b rec hreq hdo hs hb hr hu
        · exact .status req resp hreq hdo hs

/-! ## Lemmas on the accessors -/

theorem Url_eq_fetchField {σ : Type} (lib : Lib) (g : gateway σ) (st : σ) :
    Url lib g st = fetchField accountResponse.Url lib g st := rfl

theorem Subdomain_eq_fetchField {σ : Type} (lib : Lib) (g : gateway σ) (st : σ) :
    Subdomain lib g st = fetchField accountResponse.Subdomain lib g st := rfl

theorem fetchField_of_account_error {σ : Type} (field : accountResponse → String) (lib : Lib)
    (g : gateway σ) (st st1 : σ) (rec : accountResponse) (e : GoError)
    (h : account lib g st = { transport := st1, outcome := .returned (rec, some e) }) :
    fetchField field lib g st =
      { transport := st1,
        outcome := .returned ("", some (GoError.wrapf "g.account(): " e)) } := by
  simp [fetchField, h]

theorem fetchField_of_account_panic {σ : Type} (field : accountResponse → String) (lib : Lib)
    (g : gateway σ) (st st1 : σ) (reason : String)
    (h : account lib g st = { transport := st1, outcome := .panicked reason }) :
    fetchField field lib g st = { transport := st1, outcome := .panicked reason } := by
  simp [fetchField, h]

theorem fetchField_of_account_empty {σ : Type} (field : accountResponse → String) (lib : Lib)
    (g : gateway σ) (st st1 : σ) (rec : accountResponse)
    (h : account lib g st = { transport := st1, outcome := .returned (rec, none) })
    (hf : field rec = "") :
    fetchField field lib g st =
      { transport := st1,
        outcome := .returned ("", some (GoError.join GoError.ErrUnexpected
          (GoError.wrapf "g.account(): " GoError.ErrNotFound))) } := by
  simp [fetchField, h, hf]

theorem fetchField_of_account_value {σ : Type} (field : accountResponse → String) (lib : Lib)
    (g : gateway σ) (st st1 : σ) (rec : accountResponse)
    (h : account lib g st = { transport := st1, outcome := .returned (rec, none) })
    (hf : field rec ≠ "") :
    fetchField field lib g st = { transport := st1, outcome := .returned (field rec, none) } := by
  simp [fetchField, h, hf]

/-! ## The accessor on each path -/

theorem fetchField_status_404 {σ : Type} (field : accountResponse → String) (lib : Lib)
    (g : gateway σ) (st : σ) (req : Request) (resp : Response)
    (hreq : NewRequest lib MethodGet (requestUrl g.subdomain g.host) = .ok req)
    (hdo : (g.client req st).1 = { resp := some resp, err := none })
    (h404 : resp.StatusCode = StatusNotFound) :
    fetchField field lib g st =
      { transport := (g.client req st).2,
        outcome := .returned ("", some (GoError.wrapf "g.account(): " GoError.ErrNotFound)) } := by
  have hs : resp.StatusCode ≠ StatusOK := by rw [h404]; decide
  rw [fetchField_of_account_error field lib g st _ _ _ (account_status lib g st req resp hreq hdo hs)]
  simp [convertToError, h404]

theorem fetchField_classified {σ : Type} (field : accountResponse → String) (lib : Lib)
    (g : gateway σ) (st : σ)
    (h : ∀ req, NewRequest lib MethodGet (requestUrl g.subdomain g.host) = .ok req →
      (g.client req st).1.usable) :
    valueOrClassified (fetchField field lib g st).outcome := by
  cases path_exists lib g st with
  | newRequestError e he =>
    rw [fetchField_of_account_error field lib g st _ _ _ (account_newRequest_error lib g st e he)]
    simp [valueOrClassified, isErrUnexpected_wrapf, isErrUnexpected_join_left]
  | doError req r e hreq hdo =>
    rw [fetchField_of_account_error field lib g st _ _ _
      (account_do_error lib g st req r e hreq hdo)]
    simp [valueOrClassified, isErrUnexpected_wrapf, isErrUnexpected_join_left]
  | nilResponse req hreq hdo =>
    have hu := h req hreq
    simp [DoResult.usable, hdo] at hu
  | status req resp hreq hdo hs =>
    rw [fetchField_of_account_error field lib g st _ _ _
      (account_status lib g st req resp hreq hdo hs)]
    simp only [valueOrClassified, isErrUnexpected_wrapf, IsErrNotFound_wrapf, true_and]
    exact convertToError_classified _
  | nilBody req resp hreq hdo hs hb =>
    have hu := h req hreq
    simp [DoResult.usable, hdo, hs, hb] at hu
  | readError req resp b e hreq hdo hs hb hr =>
    rw [fetchField_of_account_error field lib g st _ _ _
      (account_read_error lib g st req resp b e hreq hdo hs hb hr)]
    simp [valueOrClassified, isErrUnexpected_wrapf, isErrUnexpected_join_left]
  | unmarshalError req resp b rec e hreq hdo hs hb hr hu =>
    rw [fetchField_of_account_error field lib g st _ _ _
      (account_unmarshal_error lib g st req resp b rec e hreq hdo hs hb hr hu)]
    simp [valueOrClassified, isErrUnexpected_wrapf, isErrUnexpected_join_left]
  | ok req resp b rec hreq hdo hs hb hr hu =>
    by_cases hf : field rec = ""
    · rw [fetchField_of_account_empty field lib g st _ _
        (account_ok lib g st req resp b rec hreq hdo hs hb hr hu) hf]
      simp [valueOrClassified, isErrUnexpected_join_left]
    · rw [fetchField_of_account_value field lib g st _ _
        (account_ok lib g st req resp b rec hreq hdo hs hb hr hu) hf]
      simpa [valueOrClassified] using hf

theorem fetchField_transport {σ : Type} (field : accountResponse → String) (lib : Lib)
    (g : gateway σ) (st : σ) (req : Request)
    (hreq : NewRequest lib MethodGet (requestUrl g.subdomain g.host) = .ok req) :
    (fetchField field lib g st).transport = (g.client req st).2 ∧
      (account lib g st).transport = (g.client req st).2 := by
  have same : ∀ req1, NewRequest lib MethodGet (requestUrl g.subdomain g.host) = .ok req1 →
      req1 = req := by
    intro req1 h1
    rw [hreq] at h1
    injection h1 with h1
    exact h1.symm
  cases path_exists lib g st with
  | newRequestError e he =>
    rw [hreq] at he
    exact absurd he (by simp)
  | doError req1 r e hreq1 hdo =>
    have ha := account_do_error lib g st req1 r e hreq1 hdo
    rw [fetchField_of_account_error field lib g st _ _ _ ha, ha, same req1 hreq1]
    exact ⟨rfl, rfl⟩
  | nilResponse req1 hreq1 hdo =>
    have ha := account_nil_response lib g st req1 hreq1 hdo
    rw [fetchField_of_account_panic field lib g st _ _ ha, ha, same req1 hreq1]
    exact ⟨rfl, rfl⟩
  | status req1 resp hreq1 hdo hs =>
    have ha := account_status lib g st req1 resp hreq1 hdo hs
    rw [fetchField_of_account_error field lib g st _ _ _ ha, ha, same req1 hreq1]
    exact ⟨rfl, rfl⟩
  | nilBody req1 resp hreq1 hdo hs hb =>
    have ha := account_nil_body lib g st req1 resp hreq1 hdo hs hb
    rw [fetchField_of_account_panic field lib g st _ _ ha, ha, same req1 hreq1]
    exact ⟨rfl, rfl⟩
  | readError req1 resp b e hreq1 hdo hs hb hr =>
    have ha := account_read_error lib g st req1 resp b e hreq1 hdo hs hb hr
    rw [fetchField_of_account_error field lib g st _ _ _ ha, ha, same req1 hreq1]
    exact ⟨rfl, rfl⟩
  | unmarshalError req1 resp b rec e hreq1 hdo hs hb hr hu =>
    have ha := account_unmarshal_error lib g st req1 resp b rec e hreq1 hdo hs hb hr hu
    rw [fetchField_of_account_error field lib g st _ _ _ ha, ha, same req1 hreq1]
    exact ⟨rfl, rfl⟩
  | ok req1 resp b rec hreq1 hdo hs hb hr hu =>
    have ha := account_ok lib g st req1 resp b rec hreq1 hdo hs hb hr hu
    rw [ha, same req1 hreq1]
    refine ⟨?_, rfl⟩
    by_cases hf : field rec = ""
    · rw [fetchField_of_account_empty field lib g st _ _ ha hf, same req1 hreq1]
    · rw [fetchField_of_account_value field lib g st _ _ ha hf, same req1 hreq1]

theorem answered404_iff {σ : Type} (lib : Lib) (g : gateway σ) (st : σ) (req : Request)
    (hreq : NewRequest lib MethodGet (requestUrl g.subdomain g.host) = .ok req) :
    answered404 lib g st ↔
      ∃ resp, (g.client req st).1 = { resp := some resp, err := none } ∧
        resp.StatusCode = StatusNotFound := by
  constructor
  · rintro ⟨req1, resp, h1, hdo, h404⟩
    rw [hreq] at h1
    injection h1 with h1
    subst h1
    exact ⟨resp, hdo, h404⟩
  · rintro ⟨resp, hdo, h404⟩
    exact ⟨req, resp, hreq, hdo, h404⟩

theorem not_answered404_of_newRequest_error {σ : Type} (lib : Lib) (g : gateway σ) (st : σ)
    (e : GoError)
    (he : NewRequest lib MethodGet (requestUrl g.subdomain g.host) = .error e) :
    ¬ answered404 lib g st := by
  rintro ⟨req, resp, hreq, -, -⟩
  rw [he] at hreq
  exact absurd hreq (by simp)

theorem fetchField_not_found_iff {σ : Type} (field : accountResponse → String) (lib : Lib)
    (g : gateway σ) (st : σ) (s : String) (e : Option GoError)
    (h : (fetchField field lib g st).outcome = .returned (s, e)) :
    ((IsErrNotFound e = true ∧ isErrUnexpected e = false) ↔ answered404 lib g st) ∧
      (e ≠ none → ¬ answered404 lib g st → isErrUnexpected e = true) := by
  have unexpected : ∀ err : GoError, ¬ answered404 lib g st →
      e = some (GoError.wrapf "g.account(): " (GoError.join GoError.ErrUnexpected err)) →
      ((IsErrNotFound e = true ∧ isErrUnexpected e = false) ↔ answered404 lib g st) ∧
      (e ≠ none → ¬ answered404 lib g st → isErrUnexpected e = true) := by
    intro err hn he
    subst he
    simp [hn, isErrUnexpected_wrapf, isErrUnexpected_join_left]
  cases path_exists lib g st with
  | newRequestError e1 he =>
    rw [fetchField_of_account_error field lib g st _ _ _
      (account_newRequest_error lib g st e1 he)] at h
    simp only [Outcome.returned.injEq, Prod.mk.injEq] at h
    exact unexpected _ (not_answered404_of_newRequest_error lib g st e1 he) h.2.symm
  | doError req r e1 hreq hdo =>
    rw [fetchField_of_account_error field lib g st _ _ _
      (account_do_error lib g st req r e1 hreq hdo)] at h
    simp only [Outcome.returned.injEq, Prod.mk.injEq] at h
    refine unexpected _ ?_ h.2.symm
    rw [answered404_iff lib g st req hreq, hdo]
    simp
  | nilResponse req hreq hdo =>
    rw [fetchField_of_account_panic field lib g st _ _
      (account_nil_response lib g st req hreq hdo)] at h
    simp at h
  | status req resp hreq hdo hs =>
    rw [fetchField_of_account_error field lib g st _ _ _
      (account_status lib g st req resp hreq hdo hs)] at h
    simp only [Outcome.returned.injEq, Prod.mk.injEq] at h
    by_cases h404 : resp.StatusCode = StatusNotFound
    · have ha : answered404 lib g st := ⟨req, resp, hreq, hdo, h404⟩
      rw [← h.2]
      simp [ha, convertToError, h404, IsErrNotFound_wrapf, isErrUnexpected_wrapf,
        IsErrNotFound_sentinel, isErrUnexpected_notFound]
    · have hn : ¬ answered404 lib g st := by
        rw [answered404_iff lib g st req hreq, hdo]
        simpa using h404
      have hc : convertToError resp.StatusCode = GoError.join GoError.ErrUnexpected
          (GoError.other ("unexpected status code " ++ fmtD resp.StatusCode)) := by
        simp [convertToError, h404]
      rw [hc] at h
      exact unexpected _ hn h.2.symm
  | nilBody req resp hreq hdo hs hb =>
    rw [fetchField_of_account_panic field lib g st _ _
      (account_nil_body lib g st req resp hreq hdo hs hb)] at h
    simp at h
  | readError req resp b e1 hreq hdo hs hb hr =>
    rw [fetchField_of_account_error field lib g st _ _ _
      (account_read_error lib g st req resp b e1 hreq hdo hs hb hr)] at h
    simp only [Outcome.returned.injEq, Prod.mk.injEq] at h
    refine unexpected _ ?_ h.2.symm
    rw [answered404_iff lib g st req hreq, hdo]
    simp only [DoResult.mk.injEq, Option.some.injEq, and_true, exists_eq_left', hs]
    decide
  | unmarshalError req resp b rec e1 hreq hdo hs hb hr hu =>
    rw [fetchField_of_account_error field lib g st _ _ _
      (account_unmarshal_error lib g st req resp b rec e1 hreq hdo hs hb hr hu)] at h
    simp only [Outcome.returned.injEq, Prod.mk.injEq] at h
    refine unexpected _ ?_ h.2.symm
    rw [answered404_iff lib g st req hreq, hdo]
    simp only [DoResult.mk.injEq, Option.some.injEq, and_true, exists_eq_left', hs]
    decide
  | ok req resp b rec hreq hdo hs hb hr hu =>
    have hn : ¬ answered404 lib g st := by
      rw [answered404_iff lib g st req hreq, hdo]
      simp only [DoResult.mk.injEq, Option.some.injEq, and_true, exists_eq_left', hs]
      decide
    by_cases hf : field rec = ""
    · rw [fetchField_of_account_empty field lib g st _ _
        (account_ok lib g st req resp b rec hreq hdo hs hb hr hu) hf] at h
      simp only [Outcome.returned.injEq, Prod.mk.injEq] at h
      rw [← h.2]
      simp [hn, isErrUnexpected_join_left]
    · rw [fetchField_of_account_value field lib g st _ _
        (account_ok lib g st req resp b rec hreq hdo hs hb hr hu) hf] at h
      simp only [Outcome.returned.injEq, Prod.mk.injEq] at h
      rw [← h.2]
      simp [hn, IsErrNotFound, errorsIs]

theorem fetchField_other_failure {σ : Type} (field : accountResponse → String) (lib : Lib)
    (g : gateway σ) (st : σ) (h : otherFailure field lib g st) :
    ∃ err, (fetchField field lib g st).outcome = .returned ("", some err) ∧
      isErrUnexpected (some err) = true := by
  cases h with
  | requestConstruction e hreq =>
    rw [fetchField_of_account_error field lib g st _ _ _
      (account_newRequest_error lib g st e hreq)]
    exact ⟨_, rfl, by simp [isErrUnexpected_wrapf, isErrUnexpected_join_left]⟩
  | transportError req r e hreq hdo =>
    rw [fetchField_of_account_error field lib g st _ _ _
      (account_do_error lib g st req r e hreq hdo)]
    exact ⟨_, rfl, by simp [isErrUnexpected_wrapf, isErrUnexpected_join_left]⟩
  | status req resp hreq hdo h200 h404 =>
    rw [fetchField_of_account_error field lib g st _ _ _
      (account_status lib g st req resp hreq hdo h200)]
    refine ⟨_, rfl, ?_⟩
    have hc : convertToError resp.StatusCode = GoError.join GoError.ErrUnexpected
        (GoError.other ("unexpected status code " ++ fmtD resp.StatusCode)) := by
      simp [convertToError, StatusNotFound, h404]
    rw [hc]
    simp [isErrUnexpected_wrapf, isErrUnexpected_join_left]
  | bodyRead req resp b e hreq hdo hs hb hr =>
    rw [fetchField_of_account_error field lib g st _ _ _
      (account_read_error lib g st req resp b e hreq hdo hs hb hr)]
    exact ⟨_, rfl, by simp [isErrUnexpected_wrapf, isErrUnexpected_join_left]⟩
  | jsonParse req resp b rec e hreq hdo hs hb hr hu =>
    rw [fetchField_of_account_error field lib g st _ _ _
      (account_unmarshal_error lib g st req resp b rec e hreq hdo hs hb hr hu)]
    exact ⟨_, rfl, by simp [isErrUnexpected_wrapf, isErrUnexpected_join_left]⟩
  | emptyField req resp b rec hreq hdo hs hb hr hu hf =>
    rw [fetchField_of_account_empty field lib g st _ _
      (account_ok lib g st req resp b rec hreq hdo hs hb hr hu) hf]
    exact ⟨_, rfl, isErrUnexpected_join_left _⟩

theorem stringsContains_unmarshal_label (e : GoError) :
    stringsContains
      (GoError.wrapf "g.account(): " (GoError.join GoError.ErrUnexpected
        (GoError.wrapf "json.Unmarshal: " e))).Error
      "json.Unmarshal:" := by
  refine ⟨"g.account(): unexpected error\n".data, ' ' :: e.Error.data, ?_⟩
  simp only [GoError.Error, String.data_append]
  rfl

/-! ## Lemmas on `jsonUnmarshal` -/

theorem jsonUnmarshal_of_no_document (data : String) (v : accountResponse)
    (h : scanDocument data.data = none) :
    jsonUnmarshal data v = (v, some (GoError.other "json: syntax error")) := by
  simp [jsonUnmarshal, h]

/-! ## Lemmas on `net/url` for host-safe text -/

theorem cut_of_not_mem (sep : Nat) (l : Bytes) (h : sep ∉ l) : cut sep l = (l, []) := by
  induction l with
  | nil => rfl
  | cons c cs ih =>
    have hc : c ≠ sep := fun e => h (by simp [e])
    have hcs : sep ∉ cs := fun m => h (List.mem_cons_of_mem _ m)
    simp [cut, hc, ih hcs]

theorem cut_append_of_not_mem (sep : Nat) (a b : Bytes) (h : sep ∉ a) :
    cut sep (a ++ sep :: b) = (a, b) := by
  induction a with
  | nil => simp [cut]
  | cons c cs ih =>
    have hc : c ≠ sep := fun e => h (by simp [e])
    have hcs : sep ∉ cs := fun m => h (List.mem_cons_of_mem _ m)
    simp [cut, hc, ih hcs]

theorem cutLast_of_not_mem (sep : Nat) (l : Bytes) (h : sep ∉ l) : cutLast sep l = none := by
  simp [cutLast, h]

theorem hostSafeByte_lt (b : Nat) (h : hostSafeByte b = true) : b < 128 := by
  simp only [hostSafeByte, isAlnum, byte, Bool.or_eq_true, Bool.and_eq_true, decide_eq_true_eq] at h
  have ha : 'a'.toNat = 97 := rfl
  have hz : 'z'.toNat = 122 := rfl
  have hA : 'A'.toNat = 65 := rfl
  have hZ : 'Z'.toNat = 90 := rfl
  have h0 : '0'.toNat = 48 := rfl
  have h9 : '9'.toNat = 57 := rfl
  have h1 : '-'.toNat = 45 := rfl
  have h2 : '.'.toNat = 46 := rfl
  have h3 : '_'.toNat = 95 := rfl
  have h4 : '~'.toNat = 126 := rfl
  rw [ha, hz, hA, hZ, h0, h9, h1, h2, h3, h4] at h
  omega

theorem hostSafeByte_facts (b : Nat) (h : hostSafeByte b = true) :
    b ≠ byte '#' ∧ b ≠ byte '?' ∧ b ≠ byte '/' ∧ b ≠ byte '@' ∧ b ≠ byte ':' ∧
      b ≠ byte '[' ∧ b ≠ byte '%' ∧ b ≠ byte '+' ∧ b ≠ byte '*' ∧
      ¬ (b < byte ' ' ∨ b = 0x7f) ∧ shouldEscape b .encodeHost = false := by
  have hb := hostSafeByte_lt b h
  have k1 : ∀ n < 128, hostSafeByte n = true →
      (n ≠ byte '#' ∧ n ≠ byte '?' ∧ n ≠ byte '/' ∧ n ≠ byte '@') := by decide
  have k2 : ∀ n < 128, hostSafeByte n = true →
      (n ≠ byte ':' ∧ n ≠ byte '[' ∧ n ≠ byte '%' ∧ n ≠ byte '+') := by decide
  have k3 : ∀ n < 128, hostSafeByte n = true →
      (n ≠ byte '*' ∧ ¬ (n < byte ' ' ∨ n = 0x7f)) := by decide
  have k4 : ∀ n < 128, hostSafeByte n = true →
      shouldEscape n encoding.encodeHost = false := by decide
  obtain ⟨a1, a2, a3, a4⟩ := k1 b hb h
  obtain ⟨a5, a6, a7, a8⟩ := k2 b hb h
  obtain ⟨a9, a10⟩ := k3 b hb h
  exact ⟨a1, a2, a3, a4, a5, a6, a7, a8, a9, a10, k4 b hb h⟩

theorem unescape_host_safe (l : Bytes) (h : ∀ b ∈ l, hostSafeByte b = true) :
    unescape .encodeHost l = .ok l := by
  induction l with
  | nil => rfl
  | cons c cs ih =>
    have hc := hostSafeByte_facts c (h c (by simp))
    have hcs := ih (fun b hb => h b (List.mem_cons_of_mem _ hb))
    obtain ⟨-, -, -, -, -, -, h7, h8, -, -, h11⟩ := hc
    rcases cs with _ | ⟨h1, _ | ⟨h2, rest⟩⟩ <;> simp_all [unescape]

theorem escape_host_safe (l : Bytes) (h : ∀ b ∈ l, hostSafeByte b = true) :
    escape .encodeHost l = l := by
  induction l with
  | nil => rfl
  | cons c cs ih =>
    have hc := (hostSafeByte_facts c (h c (by simp))).2.2.2.2.2.2.2.2.2.2
    have hcs := ih (fun b hb => h b (List.mem_cons_of_mem _ hb))
    rw [escape]
    simp [hc, hcs]

theorem parseHost_host_safe (A : Bytes) (hA : ∀ b ∈ A, hostSafeByte b = true) :
    parseHost A = .ok A := by
  have nc : byte ':' ∉ A := fun m => (hostSafeByte_facts _ (hA _ m)).2.2.2.2.1 rfl
  have nb : A.head? ≠ some (byte '[') := by
    intro hh
    have m : byte '[' ∈ A := List.mem_of_mem_head? hh
    exact (hostSafeByte_facts _ (hA _ m)).2.2.2.2.2.1 rfl
  simp [parseHost, nb, cutLast_of_not_mem _ _ nc, unescape_host_safe A hA]

theorem parseAuthority_host_safe (A : Bytes) (hA : ∀ b ∈ A, hostSafeByte b = true) :
    parseAuthority A = .ok (none, A) := by
  have na : byte '@' ∉ A := fun m => (hostSafeByte_facts _ (hA _ m)).2.2.2.1 rfl
  simp [parseAuthority, cutLast_of_not_mem _ _ na, parseHost_host_safe A hA]

theorem setPath_accountPath (u : URL) :
    u.setPath accountPath = .ok { u with Path := accountPath, RawPath := [] } := by
  have h1 : unescape .encodePath accountPath = .ok accountPath := rfl
  have h2 : escape .encodePath accountPath = accountPath := by decide
  simp [URL.setPath, h1, h2]

theorem parse_host_safe (A : Bytes) (hA : ∀ b ∈ A, hostSafeByte b = true) :
    parse (104 :: 116 :: 116 :: 112 :: 58 :: 47 :: 47 :: (A ++ accountPath)) =
      .ok { Scheme := utf8 "http", Host := A, Path := accountPath } := by
  have nq : byte '?' ∉ 47 :: 47 :: (A ++ accountPath) := by
    intro m
    simp only [List.mem_cons, List.mem_append] at m
    rcases m with m | m | m | m
    · exact absurd m (by decide)
    · exact absurd m (by decide)
    · exact (hostSafeByte_facts _ (hA _ m)).2.1 rfl
    · exact absurd m (by decide)
  have ns : byte '/' ∉ A := fun m => (hostSafeByte_facts _ (hA _ m)).2.2.1 rfl
  have ctl : stringContainsCTLByte
      (104 :: 116 :: 116 :: 112 :: 58 :: 47 :: 47 :: (A ++ accountPath)) = false := by
    simp only [stringContainsCTLByte, byte, List.any_cons, List.any_append]
    simp
    refine ⟨fun x hx => ?_, by decide⟩
    have := (hostSafeByte_facts _ (hA _ hx)).2.2.2.2.2.2.2.2.2.1
    simpa [byte] using this
  have hsch : getScheme (104 :: 116 :: 116 :: 112 :: 58 :: 47 :: 47 :: (A ++ accountPath)) =
      .ok ([104, 116, 116, 112], 47 :: 47 :: (A ++ accountPath)) := by
    simp [getScheme, getSchemeLoop, byte]
  have hcut : cut (byte '/') (A ++ accountPath) = (A, accountPath.tail) := by
    have : accountPath = byte '/' :: accountPath.tail := by decide
    rw [this]
    exact cut_append_of_not_mem _ _ _ ns
  have hcq : cut (byte '?') (47 :: 47 :: (A ++ accountPath)) =
      (47 :: 47 :: (A ++ accountPath), []) := cut_of_not_mem _ _ nq
  have hcount : (47 :: 47 :: (A ++ accountPath)).count (byte '?') = 0 :=
    List.count_eq_zero_of_not_mem nq
  have hslash : byte '/' ∈ A ++ accountPath :=
    List.mem_append_right _ (by decide)
  have htail : byte '/' :: accountPath.tail = accountPath := by decide
  have hlow : toLower [104, 116, 116, 112] = utf8 "http" := by decide
  have hstar : (104 :: 116 :: 116 :: 112 :: 58 :: 47 :: 47 :: (A ++ accountPath)) ≠ [byte '*'] := by
    simp
  unfold parse
  simp only [ctl, hstar, hsch, hcq, hcount]
  have hcut47 : cut 47 (A ++ accountPath) = (A, accountPath.tail) := hcut
  have h47 : 47 ∈ accountPath := by decide
  have htail47 : 47 :: accountPath.tail = accountPath := htail
  simp [hcut47, h47, htail47, hlow, parseAuthority_host_safe A hA, setPath_accountPath, byte]

theorem Parse_host_safe (A : Bytes) (hA : ∀ b ∈ A, hostSafeByte b = true) :
    Parse (104 :: 116 :: 116 :: 112 :: 58 :: 47 :: 47 :: (A ++ accountPath)) =
      .ok { Scheme := utf8 "http", Host := A, Path := accountPath } := by
  have nh : byte '#' ∉ 104 :: 116 :: 116 :: 112 :: 58 :: 47 :: 47 :: (A ++ accountPath) := by
    intro m
    simp only [List.mem_cons, List.mem_append] at m
    rcases m with m | m | m | m | m | m | m | m | m
    · exact absurd m (by decide)
    · exact absurd m (by decide)
    · exact absurd m (by decide)
    · exact absurd m (by decide)
    · exact absurd m (by decide)
    · exact absurd m (by decide)
    · exact absurd m (by decide)
    · exact (hostSafeByte_facts _ (hA _ m)).1 rfl
    · exact absurd m (by decide)
  simp [Parse, cut_of_not_mem _ _ nh, parse_host_safe A hA]

theorem removeEmptyPort_host_safe (A : Bytes) (hA : ∀ b ∈ A, hostSafeByte b = true) :
    removeEmptyPort A = A := by
  have nc : byte ':' ∉ A := fun m => (hostSafeByte_facts _ (hA _ m)).2.2.2.2.1 rfl
  simp [removeEmptyPort, cutLast_of_not_mem _ _ nc]

theorem String_host_safe (A : Bytes) (hA : ∀ b ∈ A, hostSafeByte b = true) :
    ({ Scheme := utf8 "http", Host := A, Path := accountPath } : URL).String =
      104 :: 116 :: 116 :: 112 :: 58 :: 47 :: 47 :: (A ++ accountPath) := by
  have hs : utf8 "http" = [104, 116, 116, 112] := by decide
  have hp : escape .encodePath accountPath = accountPath := by decide
  have hstar : accountPath ≠ [byte '*'] := by decide
  have hne : accountPath ≠ [] := by decide
  have hhead : accountPath.head? = some (byte '/') := by decide
  simp [URL.String, URL.EscapedPath, hs, hp, hstar, hne, hhead, escape_host_safe A hA]
  exact ⟨rfl, rfl⟩

theorem utf8Chars_append (a b : List Char) : utf8Chars (a ++ b) = utf8Chars a ++ utf8Chars b := by
  induction a with
  | nil => rfl
  | cons c cs ih => simp [utf8Chars, ih]

theorem utf8_append (s t : String) : utf8 (s ++ t) = utf8 s ++ utf8 t := by
  simp [utf8, String.data_append, utf8Chars_append]

theorem utf8_host_safe (s : String) (hs : hostSafe s) : ∀ b ∈ utf8 s, hostSafeByte b = true := by
  unfold utf8
  unfold hostSafe at hs
  generalize s.data = cs at hs
  induction cs with
  | nil => simp [utf8Chars]
  | cons c cs ih =>
    intro b hb
    have hc := hs c (by simp)
    simp only [utf8Chars, utf8Char, hc.1, if_true, List.mem_append, List.mem_singleton] at hb
    rcases hb with hb | hb
    · rw [hb]; exact hc.2
    · exact ih (fun x hx => hs x (List.mem_cons_of_mem _ hx)) b hb

theorem utf8_requestUrl (s h : String) :
    utf8 (requestUrl s h) =
      104 :: 116 :: 116 :: 112 :: 58 :: 47 :: 47 ::
        ((utf8 s ++ 46 :: (utf8 h ++ utf8 ".com")) ++ accountPath) := by
  have e1 : utf8 "http://" = [104, 116, 116, 112, 58, 47, 47] := by decide
  have e2 : utf8 "." = [46] := by decide
  have e3 : utf8 ".com/api/v2/account.json" = utf8 ".com" ++ accountPath := by decide
  simp [requestUrl, utf8_append, e1, e2, e3]

theorem NewRequest_host_safe (lib : Lib) (s h : String) (req : Request)
    (hreq : NewRequest lib MethodGet (requestUrl s h) = .ok req)
    (hmodel : lib.Parse (utf8 (requestUrl s h)) = Parse (utf8 (requestUrl s h)))
    (hs : hostSafe s) (hh : hostSafe h) :
    req.URL.String = utf8 (requestUrl s h) := by
  have hA : ∀ b ∈ utf8 s ++ 46 :: (utf8 h ++ utf8 ".com"), hostSafeByte b = true := by
    intro b hb
    simp only [List.mem_append, List.mem_cons] at hb
    rcases hb with hb | hb | hb | hb
    · exact utf8_host_safe s hs b hb
    · rw [hb]; decide
    · exact utf8_host_safe h hh b hb
    · exact utf8_host_safe ".com" (by decide) b hb
  obtain ⟨u, hu, rfl⟩ := (NewRequest_ok_iff lib _ req).1 hreq
  rw [hmodel, utf8_requestUrl, Parse_host_safe _ hA] at hu
  injection hu with hu
  subst hu
  rw [utf8_requestUrl]
  simp only [removeEmptyPort_host_safe _ hA]
  exact String_host_safe _ hA

/-! ## The claims -/

/-- C1, as amended: for every gateway configuration, every library behaviour
and every transport whose `Do` returns an error or a response that carries a
body when its status is 200, `Url` and `Subdomain` each return either a
non-empty string with a nil error, or the empty string with an error that
`IsErrNotFound` or `isErrUnexpected` recognises. -/
theorem accessors_value_or_classified_error {σ : Type} (lib : Lib) (g : gateway σ) (st : σ)
    (h : ∀ req, NewRequest lib MethodGet (requestUrl g.subdomain g.host) = .ok req →
      (g.client req st).1.usable) :
    valueOrClassified (Url lib g st).outcome ∧
      valueOrClassified (Subdomain lib g st).outcome :=
  ⟨fetchField_classified accountResponse.Url lib g st h,
   fetchField_classified accountResponse.Subdomain lib g st h⟩

/-- C1, witness: the gateway of the tests with a transport answering 200 and
the body of the happy path. -/
theorem accessors_value_or_classified_error_witness :
    valueOrClassified (Url stdlib (testGateway (okDoer urlBody)) []).outcome ∧
      valueOrClassified (Subdomain stdlib (testGateway (okDoer urlBody)) []).outcome :=
  accessors_value_or_classified_error stdlib (testGateway (okDoer urlBody)) []
    (fun _ _ => Or.inr ⟨_, rfl, fun _ => by simp⟩)

/-- C1, counterexample: with a transport whose `Do` returns a nil response and
a nil error, `Url` dereferences nil and returns neither a value nor an error. -/
theorem accessor_nil_response_panics :
    (Url stdlib (testGateway (constDoer { resp := none, err := none })) []).outcome
        = Outcome.panicked nilDeref ∧
      ¬ valueOrClassified
        (Url stdlib (testGateway (constDoer { resp := none, err := none })) []).outcome := by
  have h : (Url stdlib (testGateway (constDoer { resp := none, err := none })) []).outcome
      = Outcome.panicked nilDeref := by decide
  refine ⟨h, ?_⟩
  rw [h]
  simp [valueOrClassified]

/-- C2: when the request is built and the transport returns a response with
status 404 and no error, `Url` and `Subdomain` return the empty string with an
error that is `ErrNotFound` and not `ErrUnexpected`, whatever the body is. -/
theorem status_404_is_not_found_only {σ : Type} (lib : Lib) (g : gateway σ) (st : σ)
    (req : Request) (resp : Response)
    (hreq : NewRequest lib MethodGet (requestUrl g.subdomain g.host) = .ok req)
    (hdo : (g.client req st).1 = { resp := some resp, err := none })
    (h404 : resp.StatusCode = 404) :
    (∃ err, (Url lib g st).outcome = .returned ("", some err) ∧
        IsErrNotFound (some err) = true ∧ isErrUnexpected (some err) = false) ∧
      (∃ err, (Subdomain lib g st).outcome = .returned ("", some err) ∧
        IsErrNotFound (some err) = true ∧ isErrUnexpected (some err) = false) := by
  rw [Url_eq_fetchField, Subdomain_eq_fetchField,
    fetchField_status_404 _ lib g st req resp hreq hdo h404,
    fetchField_status_404 _ lib g st req resp hreq hdo h404]
  refine ⟨⟨_, rfl, ?_, ?_⟩, ⟨_, rfl, ?_, ?_⟩⟩ <;>
    simp [IsErrNotFound_wrapf, isErrUnexpected_wrapf, IsErrNotFound_sentinel,
      isErrUnexpected_notFound]

/-- C2, witness: the test case `response code 404`, whose response has no
body. -/
theorem status_404_is_not_found_only_witness :
    (∃ err, (Url stdlib (testGateway (constDoer
          { resp := some { StatusCode := 404, Body := none }, err := none })) []).outcome
        = .returned ("", some err) ∧
        IsErrNotFound (some err) = true ∧ isErrUnexpected (some err) = false) ∧
      (∃ err, (Subdomain stdlib (testGateway (constDoer
          { resp := some { StatusCode := 404, Body := none }, err := none })) []).outcome
        = .returned ("", some err) ∧
        IsErrNotFound (some err) = true ∧ isErrUnexpected (some err) = false) :=
  status_404_is_not_found_only stdlib
    (testGateway (constDoer { resp := some { StatusCode := 404, Body := none }, err := none }))
    [] testRequest { StatusCode := 404, Body := none } rfl rfl rfl

/-- C3, as amended: when the request is built and `Do` returns a non-nil error
`e`, `Url` returns the empty string with an error that is `ErrUnexpected`, and
that is `ErrNotFound` exactly when `e` is. -/
theorem transport_error_is_unexpected {σ : Type} (lib : Lib) (g : gateway σ) (st : σ)
    (req : Request) (r : Option Response) (e : GoError)
    (hreq : NewRequest lib MethodGet (requestUrl g.subdomain g.host) = .ok req)
    (hdo : (g.client req st).1 = { resp := r, err := some e }) :
    ∃ err, (Url lib g st).outcome = .returned ("", some err) ∧
      isErrUnexpected (some err) = true ∧
      IsErrNotFound (some err) = IsErrNotFound (some e) := by
  rw [Url_eq_fetchField,
    fetchField_of_account_error _ lib g st _ _ _ (account_do_error lib g st req r e hreq hdo)]
  refine ⟨_, rfl, ?_, ?_⟩
  · simp [isErrUnexpected_wrapf, isErrUnexpected_join_left]
  · simp [IsErrNotFound_wrapf, IsErrNotFound_join_unexpected]

/-- C3, witness: the test case `api call failed`, where the error of the
transport is not `ErrNotFound` and neither is the error of `Url`. -/
theorem transport_error_is_unexpected_witness :
    ∃ err, (Url stdlib (testGateway (constDoer
          { resp := none, err := some (GoError.other "something went wrong") })) []).outcome
        = .returned ("", some err) ∧
      isErrUnexpected (some err) = true ∧
      IsErrNotFound (some err) = IsErrNotFound (some (GoError.other "something went wrong")) :=
  transport_error_is_unexpected stdlib
    (testGateway (constDoer
      { resp := none, err := some (GoError.other "something went wrong") }))
    [] testRequest none (GoError.other "something went wrong") rfl rfl

/-- C3, counterexample: a transport whose `Do` returns the exported sentinel
`ErrNotFound` as its error makes `Url` return an error that `IsErrNotFound`
recognises. -/
theorem transport_error_can_be_not_found :
    ∃ err, (Url stdlib (testGateway (constDoer
          { resp := none, err := some GoError.ErrNotFound })) []).outcome
        = .returned ("", some err) ∧
      IsErrNotFound (some err) = true :=
  ⟨GoError.wrapf "g.account(): " (GoError.join GoError.ErrUnexpected
      (GoError.wrapf "g.client.Do: " GoError.ErrNotFound)), by decide, by decide⟩

/-- C4: when the transport returns status 200 and a readable body that decodes
without error to a record whose `Url` (for `Subdomain`: whose `Subdomain`) is
empty, the accessor returns the empty string with one error that is both
`ErrNotFound` and `ErrUnexpected`. -/
theorem empty_field_is_not_found_and_unexpected {σ : Type} (lib : Lib) (g : gateway σ)
    (st : σ) (req : Request) (resp : Response) (b : Body) (rec : accountResponse)
    (hreq : NewRequest lib MethodGet (requestUrl g.subdomain g.host) = .ok req)
    (hdo : (g.client req st).1 = { resp := some resp, err := none })
    (hs : resp.StatusCode = 200) (hb : resp.Body = some b) (hr : b.readErr = none)
    (hu : lib.unmarshal b.data accountResponse.zero = (rec, none)) :
    (rec.Url = "" →
        ∃ err, (Url lib g st).outcome = .returned ("", some err) ∧
          IsErrNotFound (some err) = true ∧ isErrUnexpected (some err) = true) ∧
      (rec.Subdomain = "" →
        ∃ err, (Subdomain lib g st).outcome = .returned ("", some err) ∧
          IsErrNotFound (some err) = true ∧ isErrUnexpected (some err) = true) := by
  have ha := account_ok lib g st req resp b rec hreq hdo hs hb hr hu
  constructor
  · intro hf
    rw [Url_eq_fetchField, fetchField_of_account_empty _ lib g st _ _ ha hf]
    exact ⟨_, rfl, by decide, by decide⟩
  · intro hf
    rw [Subdomain_eq_fetchField, fetchField_of_account_empty _ lib g st _ _ ha hf]
    exact ⟨_, rfl, by decide, by decide⟩

/-- C4, witness: the test case `empty url value`, whose body is an empty JSON
object. -/
theorem empty_field_is_not_found_and_unexpected_witness :
    (∃ err, (Url stdlib (testGateway (okDoer emptyBody)) []).outcome
          = .returned ("", some err) ∧
        IsErrNotFound (some err) = true ∧ isErrUnexpected (some err) = true) ∧
      (∃ err, (Subdomain stdlib (testGateway (okDoer emptyBody)) []).outcome
          = .returned ("", some err) ∧
        IsErrNotFound (some err) = true ∧ isErrUnexpected (some err) = true) :=
  have h := empty_field_is_not_found_and_unexpected stdlib (testGateway (okDoer emptyBody)) []
    testRequest { StatusCode := 200, Body := some { data := emptyBody, readErr := none } }
    { data := emptyBody, readErr := none } accountResponse.zero rfl rfl rfl rfl rfl rfl
  ⟨h.1 rfl, h.2 rfl⟩

/-- C5: when the transport returns status 200, no error and a readable body
that decodes without error to a record whose `Url` is a non-empty string,
`Url` returns exactly that string and a nil error; likewise `Subdomain` for a
non-empty `Subdomain`. -/
theorem nonempty_field_is_returned {σ : Type} (lib : Lib) (g : gateway σ) (st : σ)
    (req : Request) (resp : Response) (b : Body) (rec : accountResponse)
    (hreq : NewRequest lib MethodGet (requestUrl g.subdomain g.host) = .ok req)
    (hdo : (g.client req st).1 = { resp := some resp, err := none })
    (hs : resp.StatusCode = 200) (hb : resp.Body = some b) (hr : b.readErr = none)
    (hu : lib.unmarshal b.data accountResponse.zero = (rec, none)) :
    (rec.Url ≠ "" → (Url lib g st).outcome = .returned (rec.Url, none)) ∧
      (rec.Subdomain ≠ "" →
        (Subdomain lib g st).outcome = .returned (rec.Subdomain, none)) := by
  have ha := account_ok lib g st req resp b rec hreq hdo hs hb hr hu
  constructor
  · intro hf
    rw [Url_eq_fetchField, fetchField_of_account_value _ lib g st _ _ ha hf]
  · intro hf
    rw [Subdomain_eq_fetchField, fetchField_of_account_value _ lib g st _ _ ha hf]

/-- C5, witness: the happy paths of `TestUrl` and of `TestSubdomain`. -/
theorem nonempty_field_is_returned_witness :
    (Url stdlib (testGateway (okDoer urlBody)) []).outcome
        = .returned ("https://test.zendesk.com", none) ∧
      (Subdomain stdlib (testGateway (okDoer subdomainBody)) []).outcome
        = .returned ("subdomain", none) :=
  ⟨(nonempty_field_is_returned stdlib (testGateway (okDoer urlBody)) []
      testRequest { StatusCode := 200, Body := some { data := urlBody, readErr := none } }
      { data := urlBody, readErr := none }
      { accountResponse.zero with Url := "https://test.zendesk.com" }
      rfl rfl rfl rfl rfl rfl).1 (by decide),
   (nonempty_field_is_returned stdlib (testGateway (okDoer subdomainBody)) []
      testRequest { StatusCode := 200, Body := some { data := subdomainBody, readErr := none } }
      { data := subdomainBody, readErr := none }
      { accountResponse.zero with Subdomain := "subdomain" }
      rfl rfl rfl rfl rfl rfl).2 (by decide)⟩

/-- C6: when the transport returns status 200 and a readable body for which
JSON decoding fails, `Url` and `Subdomain` return the empty string with an
error that is `ErrUnexpected` and whose text contains `json.Unmarshal:`. -/
theorem unmarshal_error_is_unexpected_and_labelled {σ : Type} (lib : Lib) (g : gateway σ)
    (st : σ) (req : Request) (resp : Response) (b : Body) (rec : accountResponse)
    (e : GoError)
    (hreq : NewRequest lib MethodGet (requestUrl g.subdomain g.host) = .ok req)
    (hdo : (g.client req st).1 = { resp := some resp, err := none })
    (hs : resp.StatusCode = 200) (hb : resp.Body = some b) (hr : b.readErr = none)
    (hu : lib.unmarshal b.data accountResponse.zero = (rec, some e)) :
    (∃ err, (Url lib g st).outcome = .returned ("", some err) ∧
        isErrUnexpected (some err) = true ∧ stringsContains err.Error "json.Unmarshal:") ∧
      (∃ err, (Subdomain lib g st).outcome = .returned ("", some err) ∧
        isErrUnexpected (some err) = true ∧ stringsContains err.Error "json.Unmarshal:") := by
  have ha := account_unmarshal_error lib g st req resp b rec e hreq hdo hs hb hr hu
  rw [Url_eq_fetchField, Subdomain_eq_fetchField,
    fetchField_of_account_error _ lib g st _ _ _ ha,
    fetchField_of_account_error _ lib g st _ _ _ ha]
  exact ⟨⟨_, rfl, by simp [isErrUnexpected_wrapf, isErrUnexpected_join_left],
      stringsContains_unmarshal_label e⟩,
    ⟨_, rfl, by simp [isErrUnexpected_wrapf, isErrUnexpected_join_left],
      stringsContains_unmarshal_label e⟩⟩

/-- C6, witness: the test case `invalid response body`. -/
theorem unmarshal_error_is_unexpected_and_labelled_witness :
    (∃ err, (Url stdlib (testGateway (okDoer invalidBody)) []).outcome
          = .returned ("", some err) ∧
        isErrUnexpected (some err) = true ∧ stringsContains err.Error "json.Unmarshal:") ∧
      (∃ err, (Subdomain stdlib (testGateway (okDoer invalidBody)) []).outcome
          = .returned ("", some err) ∧
        isErrUnexpected (some err) = true ∧ stringsContains err.Error "json.Unmarshal:") :=
  unmarshal_error_is_unexpected_and_labelled stdlib (testGateway (okDoer invalidBody)) []
    testRequest { StatusCode := 200, Body := some { data := invalidBody, readErr := none } }
    { data := invalidBody, readErr := none } accountResponse.zero
    (GoError.other "json: syntax error") rfl rfl rfl rfl rfl rfl

/-- C7: for every status code `c` other than 200, `convertToError c` carries
exactly one kind: `ErrNotFound` and not `ErrUnexpected` when `c = 404`,
`ErrUnexpected` and not `ErrNotFound` when `c ≠ 404`. -/
theorem convertToError_one_kind (c : Int) :
    c ≠ 200 →
      (c = 404 → IsErrNotFound (some (convertToError c)) = true ∧
        isErrUnexpected (some (convertToError c)) = false) ∧
      (c ≠ 404 → isErrUnexpected (some (convertToError c)) = true ∧
        IsErrNotFound (some (convertToError c)) = false) := by
  intro _
  constructor
  · intro h
    subst h
    exact ⟨by decide, by decide⟩
  · intro h
    have hc : convertToError c = GoError.join GoError.ErrUnexpected
        (GoError.other ("unexpected status code " ++ fmtD c)) := by
      simp [convertToError, StatusNotFound, h]
    rw [hc]
    exact ⟨isErrUnexpected_join_left _,
      by rw [IsErrNotFound_join_unexpected, IsErrNotFound_other]⟩

/-- C7, witness: the status of the test case `response code not 200`,
`http.StatusLocked`, and the status 404. -/
theorem convertToError_one_kind_witness :
    (isErrUnexpected (some (convertToError 423)) = true ∧
        IsErrNotFound (some (convertToError 423)) = false) ∧
      (IsErrNotFound (some (convertToError 404)) = true ∧
        isErrUnexpected (some (convertToError 404)) = false) :=
  ⟨(convertToError_one_kind 423 (by decide)).2 (by decide),
   (convertToError_one_kind 404 (by decide)).1 rfl⟩

/-- C8, as amended: for every subdomain `s` and host `h` for which request
construction succeeds, the request handed to `Do` is a GET request with no body
whose URL is what `url.Parse` gave for exactly the text
`"http://" ++ s ++ "." ++ h ++ ".com/api/v2/account.json"`, an empty port
dropped; the string of that URL is exactly that text when `s` and `h` are made
of ASCII letters, digits, `-`, `.`, `_` and `~` and `url.Parse` behaves on the
text as `net/url` does; and one call of `account`, `Url` or `Subdomain` leaves
the transport in the state that one call of `Do` with that request leaves it
in. -/
theorem request_is_one_get_of_account_json {σ : Type} (lib : Lib) (client : doer σ)
    (s h : String) (st : σ) (req : Request)
    (hreq : NewRequest lib MethodGet (requestUrl s h) = .ok req) :
    (req.Method = "GET" ∧ req.Body = none ∧
        ∃ u, lib.Parse (utf8 ("http://" ++ s ++ "." ++ h ++ ".com/api/v2/account.json")) = .ok u ∧
          req.URL = { u with Host := removeEmptyPort u.Host }) ∧
      (lib.Parse (utf8 ("http://" ++ s ++ "." ++ h ++ ".com/api/v2/account.json"))
            = Parse (utf8 ("http://" ++ s ++ "." ++ h ++ ".com/api/v2/account.json")) →
          hostSafe s → hostSafe h →
          req.URL.String = utf8 ("http://" ++ s ++ "." ++ h ++ ".com/api/v2/account.json")) ∧
      (account lib (NewGateway client s h).1 st).transport = (client req st).2 ∧
      (Url lib (NewGateway client s h).1 st).transport = (client req st).2 ∧
      (Subdomain lib (NewGateway client s h).1 st).transport = (client req st).2 := by
  refine ⟨?_, ?_, ?_, ?_, ?_⟩
  · obtain ⟨u, hu, rfl⟩ := (NewRequest_ok_iff lib _ req).1 hreq
    exact ⟨rfl, rfl, u, hu, rfl⟩
  · intro hmodel hs hh
    exact NewRequest_host_safe lib s h req hreq hmodel hs hh
  · exact (fetchField_transport accountResponse.Url lib (NewGateway client s h).1 st req hreq).2
  · exact (fetchField_transport accountResponse.Url lib (NewGateway client s h).1 st req hreq).1
  · exact (fetchField_transport accountResponse.Subdomain lib (NewGateway client s h).1 st req
      hreq).1

/-- C8, witness: the gateway of the tests with a mock transport that has not
been called yet: the request has the URL string the tests expect, and after
one call of an accessor the transport holds exactly that request. -/
theorem request_is_one_get_of_account_json_witness :
    testRequest.Method = "GET" ∧ testRequest.Body = none ∧
      testRequest.URL.String = utf8 "http://subdomain.host.com/api/v2/account.json" ∧
      (account stdlib (NewGateway (okDoer urlBody) "subdomain" "host").1 []).transport
        = [testRequest] ∧
      (Url stdlib (NewGateway (okDoer urlBody) "subdomain" "host").1 []).transport
        = [testRequest] ∧
      (Subdomain stdlib (NewGateway (okDoer urlBody) "subdomain" "host").1 []).transport
        = [testRequest] :=
  have h := request_is_one_get_of_account_json stdlib (okDoer urlBody) "subdomain" "host" []
    testRequest rfl
  ⟨h.1.1, h.1.2.1, h.2.1 rfl (by decide) (by decide), h.2.2.1, h.2.2.2.1, h.2.2.2.2⟩

/-- C8, counterexample: for the subdomain `café` request construction
succeeds, and the request the transport receives has the URL string
`http://caf%C3%A9.host.com/api/v2/account.json`, not the formatted text. -/
theorem request_url_is_reencoded :
    ∃ req, NewRequest stdlib MethodGet (requestUrl "café" "host") = .ok req ∧
      (Url stdlib (NewGateway (okDoer urlBody) "café" "host").1 []).transport = [req] ∧
      req.URL.String = utf8 "http://caf%C3%A9.host.com/api/v2/account.json" ∧
      req.URL.String ≠ utf8 ("http://" ++ "café" ++ "." ++ "host" ++ ".com/api/v2/account.json") :=
  ⟨{ Method := "GET",
     URL := { Scheme := utf8 "http", Host := utf8 "café.host.com", Path := accountPath },
     Body := none },
   rfl, by decide, by decide, by decide⟩

/-- C9, the code at the failing input: a 200 response whose body is valid JSON
with `owner_id` given as a string makes `json.Unmarshal` fail after it stored
`url`, and `account` returns that record, which is not the zero value,
alongside the error. -/
theorem account_unmarshal_error_record_not_zero :
    (account stdlib (testGateway (okDoer mistypedBody)) []).outcome
        = .returned ({ accountResponse.zero with Url := "https://test.zendesk.com" },
            some (GoError.join GoError.ErrUnexpected (GoError.wrapf "json.Unmarshal: "
              (GoError.other ("json: cannot unmarshal string into Go struct field "
                ++ "accountResponse.owner_id of type int64"))))) ∧
      ({ accountResponse.zero with Url := "https://test.zendesk.com" } : accountResponse)
        ≠ accountResponse.zero :=
  ⟨by decide, by decide⟩

/-- C10: `Url` (or `Subdomain`) returns an error that is `ErrNotFound` without
being `ErrUnexpected` if and only if request construction succeeded and the
transport returned no error and a response with status 404; every other
non-nil error it returns is `ErrUnexpected`; and on every other failure
(request construction, transport error, a status that is neither 200 nor 404,
body read, JSON parse, empty field) it returns the empty string with an error
that is `ErrUnexpected`. -/
theorem not_found_alone_iff_status_404 {σ : Type} (lib : Lib) (g : gateway σ) (st : σ) :
    (((∃ s err, (Url lib g st).outcome = .returned (s, some err) ∧
          IsErrNotFound (some err) = true ∧ isErrUnexpected (some err) = false)
        ↔ answered404 lib g st) ∧
      (∀ s err, (Url lib g st).outcome = .returned (s, some err) → ¬ answered404 lib g st →
        isErrUnexpected (some err) = true) ∧
      (otherFailure accountResponse.Url lib g st →
        ∃ err, (Url lib g st).outcome = .returned ("", some err) ∧
          isErrUnexpected (some err) = true)) ∧
    (((∃ s err, (Subdomain lib g st).outcome = .returned (s, some err) ∧
          IsErrNotFound (some err) = true ∧ isErrUnexpected (some err) = false)
        ↔ answered404 lib g st) ∧
      (∀ s err, (Subdomain lib g st).outcome = .returned (s, some err) →
        ¬ answered404 lib g st → isErrUnexpected (some err) = true) ∧
      (otherFailure accountResponse.Subdomain lib g st →
        ∃ err, (Subdomain lib g st).outcome = .returned ("", some err) ∧
          isErrUnexpected (some err) = true)) := by
  have key : ∀ field : accountResponse → String,
      ((∃ s err, (fetchField field lib g st).outcome = .returned (s, some err) ∧
          IsErrNotFound (some err) = true ∧ isErrUnexpected (some err) = false)
        ↔ answered404 lib g st) ∧
      (∀ s err, (fetchField field lib g st).outcome = .returned (s, some err) →
        ¬ answered404 lib g st → isErrUnexpected (some err) = true) ∧
      (otherFailure field lib g st →
        ∃ err, (fetchField field lib g st).outcome = .returned ("", some err) ∧
          isErrUnexpected (some err) = true) := by
    intro field
    refine ⟨⟨?_, ?_⟩, ?_, ?_⟩
    · rintro ⟨s, err, h, hnf, hux⟩
      exact (fetchField_not_found_iff field lib g st s (some err) h).1.1 ⟨hnf, hux⟩
    · rintro ⟨req, resp, hreq, hdo, h404⟩
      refine ⟨"", GoError.wrapf "g.account(): " GoError.ErrNotFound, ?_, by decide, by decide⟩
      rw [fetchField_status_404 field lib g st req resp hreq hdo h404]
    · intro s err h hn
      exact (fetchField_not_found_iff field lib g st s (some err) h).2 (by simp) hn
    · exact fetchField_other_failure field lib g st
  exact ⟨key accountResponse.Url, key accountResponse.Subdomain⟩

/-- C10, witness: the test case `response code 404`, where `Url` returns an
error that is `ErrNotFound` alone, and the test case `response code not 200`,
where it returns an error that is `ErrUnexpected`. -/
theorem not_found_alone_iff_status_404_witness :
    (∃ s err, (Url stdlib (testGateway (constDoer
            { resp := some { StatusCode := 404, Body := none }, err := none })) []).outcome
          = .returned (s, some err) ∧
        IsErrNotFound (some err) = true ∧ isErrUnexpected (some err) = false) ∧
      (∃ err, (Url stdlib (testGateway (constDoer
            { resp := some { StatusCode := 423, Body := none }, err := none })) []).outcome
          = .returned ("", some err) ∧
        isErrUnexpected (some err) = true) :=
  ⟨(not_found_alone_iff_status_404 stdlib
      (testGateway (constDoer
        { resp := some { StatusCode := 404, Body := none }, err := none })) []).1.1.2
      ⟨testRequest, { StatusCode := 404, Body := none }, rfl, rfl, rfl⟩,
   (not_found_alone_iff_status_404 stdlib
      (testGateway (constDoer
        { resp := some { StatusCode := 423, Body := none }, err := none })) []).1.2.2
      (otherFailure.status testRequest { StatusCode := 423, Body := none } rfl rfl
        (by decide) (by decide))⟩

end Zendesk
